import Mathlib

/-!
Verification of the membership-tracking core of the bitECS fork
(`src/Component.js`): multi-generation bitmask component membership with
query-aware update propagation.

The embedding is shallow and executable:
* JavaScript objects, typed arrays and primitive values relevant to the
  component stores are modelled by the inductive `JSVal`; JS `typeof`
  including the `typeof null === 'object'` quirk is modelled by `typeofJS`.
* `Uint32Array` cells are `Nat` values `< 2^32`; the bitwise JS operators
  `|`, `& ~` on 32-bit lanes are `jsOr` / `jsAndNot`; the signed `===`
  comparison of `mask & bitflag` against `bitflag` goes through `toInt32`.
* JS `Map` and `Set` objects are insertion-ordered association lists and
  lists; JS exceptions are modelled by `Res`, whose `err` constructor also
  carries the state at the moment of the throw (JS mutates in place, so an
  operation that throws leaves all mutations made before the throw).
* Collaborators that live outside `src/` (Query.js, Storage.js, World.js)
  are modelled from the specification; each such definition is marked
  `Modelled from the spec` in its doc comment.
-/

set_option autoImplicit false

namespace BitECS

/-- Result of a JS operation on a state of type `α`: either a normal return
or a thrown exception. `err` carries the state at the moment of the throw,
since JS mutations made before the throw persist. -/
inductive Res (α : Type) : Type where
  | ok (a : α)
  | err (msg : String) (a : α)
deriving DecidableEq

/-- The state carried by a result, whether or not an exception was thrown. -/
def Res.state {α : Type} : Res α → α
  | .ok a => a
  | .err _ a => a

/-- Lookup in an insertion-ordered association list (JS `Map.get`). -/
def lookupA {κ α : Type} [DecidableEq κ] (k : κ) : List (κ × α) → Option α
  | [] => none
  | (k', v) :: t => if k' = k then some v else lookupA k t

/-- JS `Map.set` / object property write: replace the value of an existing
key in place, otherwise append the new entry at the end. -/
def setA {κ α : Type} [DecidableEq κ] (k : κ) (v : α) : List (κ × α) → List (κ × α)
  | [] => [(k, v)]
  | (k', v') :: t => if k' = k then (k, v) :: t else (k', v') :: setA k v t

/-- Replace the value of an existing key; a no-op when the key is absent.
Models the fact that mutating the object found at a key is visible through
the parent only when the parent actually holds a reference at that key. -/
def replaceA {κ α : Type} [DecidableEq κ] (k : κ) (v : α) : List (κ × α) → List (κ × α)
  | [] => []
  | (k', v') :: t => if k' = k then (k, v) :: t else (k', v') :: replaceA k v t

/-- JS `Set.add` on an insertion-ordered set modelled as a duplicate-free
list: append if absent. -/
def saddList (l : List Nat) (x : Nat) : List Nat :=
  if x ∈ l then l else l ++ [x]

/-- JS `Set.delete` / sparse-set `remove`: drop the element. -/
def sremoveList (l : List Nat) (x : Nat) : List Nat :=
  l.filter (fun y => y ≠ x)

/-! ### 32-bit JavaScript arithmetic -/

/-- `ToUint32`: the low 32 bits of a non-negative JS number. -/
def mask32 (n : Nat) : Nat := n % 4294967296

/-- Reinterpret the low 32 bits of a non-negative number as a signed
32-bit integer, as JS bitwise operators do before `===` comparison. -/
def toInt32 (n : Nat) : Int :=
  if mask32 n < 2147483648 then (mask32 n : Int) else (mask32 n : Int) - 4294967296

/-- JS `m | b` stored back into a `Uint32Array` cell. -/
def jsOr (m b : Nat) : Nat := mask32 m ||| mask32 b

/-- JS `m & ~b` stored back into a `Uint32Array` cell: bitwise AND with the
32-bit complement of `b`. -/
def jsAndNot (m b : Nat) : Nat := mask32 m &&& (4294967295 - mask32 b)

/-! ### JavaScript values and component stores

A component store (created by `createStore` in the external Storage.js) is
a nested JS object whose leaves are numeric typed arrays indexed by entity
id; the data argument of `updateComponent` is an arbitrary JS value. Both
are modelled by `JSVal`. -/

/-- A JavaScript value, as far as the component-store code observes it:
numbers, strings, booleans, `null`, `undefined`, numeric (typed) arrays
and plain objects with insertion-ordered string keys. -/
inductive JSVal : Type where
  | num (n : Int)
  | str (s : String)
  | bool (b : Bool)
  | null
  | undefined
  | arr (elems : List Int)
  | obj (fields : List (String × JSVal))

/-- JS `typeof`. Note `typeof null` is `"object"`. -/
def typeofJS : JSVal → String
  | .num _ => "number"
  | .str _ => "string"
  | .bool _ => "boolean"
  | .null => "object"
  | .undefined => "undefined"
  | .arr _ => "object"
  | .obj _ => "object"

/-- The message of the `TypeError` raised by property access on
`null`/`undefined` and by `Object.keys(null)`. -/
def typeErrMsg : String := "TypeError"

/-- JS property read `v[k]`. Reading a property of `null` or `undefined`
throws; reading an absent key of an object yields `undefined`; numeric
string keys index arrays and strings. -/
def getProp (v : JSVal) (k : String) : Res JSVal :=
  match v with
  | .null => .err typeErrMsg .null
  | .undefined => .err typeErrMsg .undefined
  | .obj fs => .ok ((lookupA k fs).getD .undefined)
  | .arr es =>
    .ok (match k.toNat? with
         | some i => match es.get? i with
                     | some n => .num n
                     | none => .undefined
         | none => .undefined)
  | .str s =>
    .ok (match k.toNat? with
         | some i => match s.toList.get? i with
                     | some ch => .str (String.mk [ch])
                     | none => .undefined
         | none => .undefined)
  | .num _ => .ok .undefined
  | .bool _ => .ok .undefined

/-- The write `(componentSection[k])[eid] = data[k]` performed by
`recursivelySetComponentAttributes` on the value `sub = componentSection[k]`.
Writing into a typed array in range updates the cell and out of range is
silently ignored; writing a property onto a plain object inserts it; writing
a property of `null`/`undefined` or of a primitive (strict-mode module code)
throws a `TypeError`. -/
def setIdx (sub : JSVal) (eid : Nat) (n : Int) : Res JSVal :=
  match sub with
  | .arr es => .ok (.arr (es.set eid n))
  | .obj fs => .ok (.obj (setA (toString eid) (.num n) fs))
  | v => .err typeErrMsg v

/-- Propagate the in-place mutation of the value found at `componentSection[k]`
back into the parent: rebind `k` when the parent actually holds it (a JS
reference would have been shared), and leave the parent alone otherwise. -/
def updatePropIfPresent (sec : JSVal) (k : String) (x : JSVal) : JSVal :=
  match sec with
  | .obj fs => .obj (replaceA k x fs)
  | .arr es =>
    match k.toNat?, x with
    | some i, .num n => .arr (es.set i n)
    | _, _ => .arr es
  | v => v

/-- One step of the `Object.keys(data).forEach` loop of
`recursivelySetComponentAttributes` for a key whose data value is a number:
read `componentSection[k]`, write index `eid` into it, propagate. -/
def setNumStep (eid : Nat) (sec : JSVal) (k : String) (n : Int) : Res JSVal :=
  match getProp sec k with
  | .err m _ => .err m sec
  | .ok sub =>
    match setIdx sub eid n with
    | .err m sub' => .err m (updatePropIfPresent sec k sub')
    | .ok sub' => .ok (updatePropIfPresent sec k sub')

/-- The `forEach` loop of `recursivelySetComponentAttributes` specialised to
a `data` value that is a JS array: every visited value is a number. -/
def setNums (eid : Nat) (sec : JSVal) : List (String × Int) → Res JSVal
  | [] => .ok sec
  | (k, n) :: rest =>
    match setNumStep eid sec k n with
    | .err m sec' => .err m sec'
    | .ok sec' => setNums eid sec' rest

mutual

/-- `recursivelySetComponentAttributes(eid, componentSection, data)` from
`src/Component.js`. If `typeof data !== 'object'` it returns at once
(numbers, strings, booleans, `undefined`); since `typeof null === 'object'`,
`null` falls through to `Object.keys(null)`, which throws a `TypeError`.
For an object, each key with a non-numeric value is recursed into, and each
key with a numeric value is written at index `eid` of the corresponding
section. -/
def recursivelySetComponentAttributes (eid : Nat) (componentSection : JSVal)
    (data : JSVal) : Res JSVal :=
  match data with
  | .null => .err typeErrMsg componentSection
  | .obj fields => setFields eid componentSection fields
  | .arr es => setNums eid componentSection (es.enum.map (fun p => (toString p.1, p.2)))
  | _ => .ok componentSection

/-- The `Object.keys(data).forEach` loop of
`recursivelySetComponentAttributes` over the (insertion-ordered, key-distinct)
fields of an object `data`. -/
def setFields (eid : Nat) (sec : JSVal) : List (String × JSVal) → Res JSVal
  | [] => .ok sec
  | (k, dv) :: rest =>
    match dv with
    | .num n =>
      match setNumStep eid sec k n with
      | .err m sec' => .err m sec'
      | .ok sec' => setFields eid sec' rest
    | dv =>
      match getProp sec k with
      | .err m _ => .err m sec
      | .ok sub =>
        match recursivelySetComponentAttributes eid sub dv with
        | .err m sub' => .err m (updatePropIfPresent sec k sub')
        | .ok sub' => setFields eid (updatePropIfPresent sec k sub') rest

end

mutual

/-- Modelled from the spec: `resetStoreFor(component, eid)` from the external
Storage.js (not under `src/`); per §6 of the spec it zeroes every numeric
leaf field of the store at index `eid`. -/
def resetStoreFor (s : JSVal) (eid : Nat) : JSVal :=
  match s with
  | .arr es => .arr (es.set eid 0)
  | .obj fs => .obj (resetFieldsFor fs eid)
  | v => v

/-- Modelled from the spec: recursion of `resetStoreFor` through the nested
sections of a store. -/
def resetFieldsFor (fs : List (String × JSVal)) (eid : Nat) :
    List (String × JSVal) :=
  match fs with
  | [] => []
  | (k, v) :: t => (k, resetStoreFor v eid) :: resetFieldsFor t eid

end

/-! ### Queries and the world

Component handles are opaque and identity-compared; they are modelled by
`Nat` identifiers, with each handle's store contents carried in the world's
`stores` association list (in JS the store arrays hang off the handle object
itself; keying them by the handle is the same observable state). -/

/-- A live query object, as far as `Component.js` touches it: its required
component list and its `results` / `entered` / `exited` / `toRemove`
insertion-ordered sets. The result-set representation is Modelled from the
spec (Query.js is not under `src/`). -/
structure Query : Type where
  allComponents : List Nat
  results : List Nat
  entered : List Nat
  exited : List Nat
  toRemove : List Nat
deriving DecidableEq

/-- The registration record stored in `world[$componentMap]`. `store` is the
component handle itself (the map key), and `notQueries` / `changedQueries`
are created empty and never consulted by `Component.js`, so neither is
duplicated here. `queries` holds the indices into the world's query list of
the queries interested in this component. -/
structure CompRecord : Type where
  generationId : Nat
  bitflag : Nat
  queries : List Nat
deriving DecidableEq

/-- The per-world state read and written by `Component.js`:
`size` (`world[$size]`, entity capacity), `bitflag` (`world[$bitflag]`, the
allocation cursor), `entityMasks` (`world[$entityMasks]`, one `Uint32Array`
of length `size` per generation), `componentMap`, the external existence
sparse set, `entityComponents`, the live query list, and the component
stores keyed by handle. -/
structure World : Type where
  size : Nat
  bitflag : Nat
  entityMasks : List (List Nat)
  componentMap : List (Nat × CompRecord)
  entitySparseSet : List Nat
  entityComponents : List (Nat × List Nat)
  queries : List Query
  stores : List (Nat × JSVal)

/-- The mask word `entityMasks[g][e]`; out-of-range reads give `undefined`,
which the bitwise operators coerce to `0`. -/
def maskAt (w : World) (g e : Nat) : Nat :=
  (w.entityMasks.getD g []).getD e 0

/-- `hasComponent(world, component, eid)` from `src/Component.js`: `false`
for an unregistered component, otherwise the signed 32-bit comparison
`(entityMasks[generationId][eid] & bitflag) === bitflag`. -/
def hasComponent (w : World) (c : Nat) (eid : Nat) : Bool :=
  match lookupA c w.componentMap with
  | none => false
  | some r =>
    decide (toInt32 (mask32 (maskAt w r.generationId eid) &&& mask32 r.bitflag)
      = (r.bitflag : Int))

/-- Modelled from the spec: `queryCheckEntity(world, q, eid)` from the
external Query.js (not under `src/`); per §4.3.1/§8 of the spec it is the
full membership recomputation, true exactly when the entity has every one of
the query's constituent components. -/
def queryCheckEntity (w : World) (q : Query) (eid : Nat) : Bool :=
  q.allComponents.all (fun c => hasComponent w c eid)

/-- Modelled from the spec: `queryAddEntity(q, eid)` from the external
Query.js; per §4.3.1 it inserts the entity into the query's result set,
recording an `entered` signal when the insertion is real. -/
def queryAddEntity (q : Query) (eid : Nat) : Query :=
  if eid ∈ q.results then q
  else { q with results := q.results ++ [eid], entered := saddList q.entered eid }

/-- Modelled from the spec: `queryRemoveEntity(world, q, eid)` from the
external Query.js; per §4.3.1 the spec leaves deferred versus immediate
removal to the query engine, and this model removes immediately, recording
an `exited` signal when the removal is real. (The `world` argument only
feeds the engine's own bookkeeping and is dropped.) -/
def queryRemoveEntity (q : Query) (eid : Nat) : Query :=
  if eid ∈ q.results then
    { q with results := sremoveList q.results eid, exited := saddList q.exited eid }
  else q

/-- The indices of the queries of `qs` whose `allComponents` list includes
component `c` — the set collected by `registerComponent`'s
`world[$queries].forEach` loop, in iteration order. -/
def interestedIdxs (qs : List Query) (c : Nat) : List Nat :=
  (qs.enum.filter (fun p => p.2.allComponents.contains c)).map (fun p => p.1)

/-- The per-query body of the `queries.forEach(q => ...)` synchronization
loop shared verbatim by `addComponent` and `removeComponent`:
`q.toRemove.remove(eid)`, recompute the match with `queryCheckEntity`, and
either (`q.exited.remove(eid)`; `queryAddEntity`) or
(`q.entered.remove(eid)`; `queryRemoveEntity`). -/
def qtransform (w : World) (eid : Nat) (q : Query) : Query :=
  let q1 := { q with toRemove := sremoveList q.toRemove eid }
  if queryCheckEntity w q1 eid then
    queryAddEntity { q1 with exited := sremoveList q1.exited eid } eid
  else
    queryRemoveEntity { q1 with entered := sremoveList q1.entered eid } eid

/-- Apply the shared synchronization body to the query at index `i` of the
world's query list. -/
def syncQueryForEntity (eid : Nat) (w : World) (i : Nat) : World :=
  match w.queries[i]? with
  | none => w
  | some q => { w with queries := w.queries.set i (qtransform w eid q) }

/-- `world[$entityMasks][g][eid] |= b` (the in-range write; `addComponent`
itself throws first when generation `g` does not exist). -/
def withMaskOr (w : World) (g eid b : Nat) : World :=
  match w.entityMasks[g]? with
  | none => w
  | some row =>
    { w with entityMasks := w.entityMasks.set g (row.set eid (jsOr (row.getD eid 0) b)) }

/-- `world[$entityMasks][g][eid] &= ~b` (the in-range write). -/
def withMaskAndNot (w : World) (g eid b : Nat) : World :=
  match w.entityMasks[g]? with
  | none => w
  | some row =>
    { w with entityMasks := w.entityMasks.set g (row.set eid (jsAndNot (row.getD eid 0) b)) }

/-- `if (reset) resetStoreFor(component, eid)` lifted to the world's store
map. -/
def resetStoreOf (w : World) (c : Nat) (eid : Nat) : World :=
  match lookupA c w.stores with
  | none => w
  | some s => { w with stores := setA c (resetStoreFor s eid) w.stores }

/-- `incrementBitflag(world)` from `src/Component.js`: double the cursor;
when it reaches `2^31`, reset it to `1` and push a fresh all-zero
generation word array of the world's entity capacity. -/
def incrementBitflag (w : World) : World :=
  let w := { w with bitflag := w.bitflag * 2 }
  if w.bitflag ≥ 2 ^ 31 then
    { w with bitflag := 1,
             entityMasks := w.entityMasks ++ [List.replicate w.size 0] }
  else w

/-- `registerComponent(world, component)` from `src/Component.js`: collect
the interested queries, store the registration record for the current
(last) generation and cursor, then advance the cursor. (The throw on a
null/undefined handle cannot arise for `Nat`-modelled handles and the
generation index is the JS `length - 1` under the reachable-state invariant
that at least one generation exists.) -/
def registerComponent (w : World) (c : Nat) : World :=
  let r : CompRecord :=
    { generationId := w.entityMasks.length - 1,
      bitflag := w.bitflag,
      queries := interestedIdxs w.queries c }
  incrementBitflag { w with componentMap := setA c r w.componentMap }

/-- `registerComponents(world, components)` from `src/Component.js`. -/
def registerComponents (w : World) (cs : List Nat) : World :=
  cs.foldl registerComponent w

/-- The registration record that `registerComponent w c` creates: current
(last) generation, current cursor, and the interested-query indices. -/
def freshRecord (w : World) (c : Nat) : CompRecord :=
  { generationId := w.entityMasks.length - 1, bitflag := w.bitflag,
    queries := interestedIdxs w.queries c }

/-- Modelled from the spec: a fresh world as produced by the external
World.js bootstrap (not under `src/`) — cursor `1`, a single all-zero
generation sized to the entity capacity, and no registrations, entities,
queries or stores. -/
def createWorld (size : Nat) : World :=
  { size := size, bitflag := 1, entityMasks := [List.replicate size 0],
    componentMap := [], entitySparseSet := [], entityComponents := [],
    queries := [], stores := [] }

/-- The error message of the `EntityUndefined` guard. -/
def entityUndefinedMsg : String := "bitECS - entity is undefined."

/-- The error message of the `EntityNotFound` guard. -/
def entityNotFoundMsg : String := "bitECS - entity does not exist in the world."

/-- `addComponent(world, component, eid, reset=false)` from
`src/Component.js`: the two existence guards, lazy registration, the
already-present no-op, the mask-bit set, the interested-query
synchronization loop, the attached-component set insertion, and the
optional store reset. -/
def addComponent (w : World) (c : Nat) (eid? : Option Nat)
    (reset : Bool := false) : Res World :=
  match eid? with
  | none => .err entityUndefinedMsg w
  | some eid =>
    if eid ∈ w.entitySparseSet then
      let w := if (lookupA c w.componentMap).isSome then w else registerComponent w c
      if hasComponent w c eid then .ok w
      else
        match lookupA c w.componentMap with
        | none => .err typeErrMsg w
        | some r =>
          match w.entityMasks[r.generationId]? with
          | none => .err typeErrMsg w
          | some _ =>
            let w := withMaskOr w r.generationId eid r.bitflag
            let w := r.queries.foldl (syncQueryForEntity eid) w
            match lookupA eid w.entityComponents with
            | none => .err typeErrMsg w
            | some s =>
              let w := { w with entityComponents := setA eid (saddList s c) w.entityComponents }
              .ok (if reset then resetStoreOf w c eid else w)
    else .err entityNotFoundMsg w

/-- `removeComponent(world, component, eid, reset=true)` from
`src/Component.js`: the same two guards, then the already-absent no-op
(`if (!hasComponent(world, component, eid)) return`) — unlike
`addComponent`, there is no lazy-registration step, so an unregistered
component early-returns with the world untouched — the mask-bit clear, the
same synchronization loop, the attached-component set deletion, and the
reset that now defaults on. -/
def removeComponent (w : World) (c : Nat) (eid? : Option Nat)
    (reset : Bool := true) : Res World :=
  match eid? with
  | none => .err entityUndefinedMsg w
  | some eid =>
    if eid ∈ w.entitySparseSet then
      if hasComponent w c eid then
        match lookupA c w.componentMap with
        | none => .err typeErrMsg w
        | some r =>
          match w.entityMasks[r.generationId]? with
          | none => .err typeErrMsg w
          | some _ =>
            let w := withMaskAndNot w r.generationId eid r.bitflag
            let w := r.queries.foldl (syncQueryForEntity eid) w
            match lookupA eid w.entityComponents with
            | none => .err typeErrMsg w
            | some s =>
              let w := { w with entityComponents := setA eid (sremoveList s c) w.entityComponents }
              .ok (if reset then resetStoreOf w c eid else w)
      else .ok w
    else .err entityNotFoundMsg w

/-- `updateComponent(world, component, eid, data)` from `src/Component.js`:
the same two guards, a silent no-op when the component is not attached,
otherwise the recursive attribute assignment on the component's store. -/
def updateComponent (w : World) (c : Nat) (eid? : Option Nat)
    (data : JSVal) : Res World :=
  match eid? with
  | none => .err entityUndefinedMsg w
  | some eid =>
    if eid ∈ w.entitySparseSet then
      if hasComponent w c eid then
        match recursivelySetComponentAttributes eid
            ((lookupA c w.stores).getD .undefined) data with
        | .ok s' => .ok { w with stores := setA c s' w.stores }
        | .err m s' => .err m { w with stores := setA c s' w.stores }
      else .ok w
    else .err entityNotFoundMsg w

/-- `addAndPartiallyFillComponent(world, component, eid, data, reset=false)`
from `src/Component.js`: `addComponent` then `updateComponent`, an
exception in the former propagating. -/
def addAndPartiallyFillComponent (w : World) (c : Nat) (eid? : Option Nat)
    (data : JSVal) (reset : Bool := false) : Res World :=
  match addComponent w c eid? reset with
  | .err m w' => .err m w'
  | .ok w' => updateComponent w' c eid? data

/-- `addAndFillComponent(world, component, eid, data, reset=false)` from
`src/Component.js`: a stricter-typed alias of the partial-fill variant. -/
def addAndFillComponent (w : World) (c : Nat) (eid? : Option Nat)
    (data : JSVal) (reset : Bool := false) : Res World :=
  addAndPartiallyFillComponent w c eid? data reset

/-- The state returned by a successful `addComponent` that actually
performs the absent-to-present transition with registration record `r` and
prior attached-component set `s`: set the mask bit, run the shared
synchronization loop over the interested queries, insert into the
attached-component set, and optionally reset the store. -/
def addPostState (w : World) (c e : Nat) (reset : Bool) (r : CompRecord)
    (s : List Nat) : World :=
  let w1 := withMaskOr w r.generationId e r.bitflag
  let w2 := r.queries.foldl (syncQueryForEntity e) w1
  let w3 := { w2 with entityComponents := setA e (saddList s c) w2.entityComponents }
  if reset then resetStoreOf w3 c e else w3

/-- The state returned by a successful `removeComponent` that actually
performs the present-to-absent transition: clear the mask bit, run the
same synchronization loop, delete from the attached-component set, and
optionally reset the store. -/
def removePostState (w : World) (c e : Nat) (reset : Bool) (r : CompRecord)
    (s : List Nat) : World :=
  let w1 := withMaskAndNot w r.generationId e r.bitflag
  let w2 := r.queries.foldl (syncQueryForEntity e) w1
  let w3 := { w2 with entityComponents := setA e (sremoveList s c) w2.entityComponents }
  if reset then resetStoreOf w3 c e else w3

/-- Walk a store value along a path of nested section names
(`C.pos.x` is the path `["pos", "x"]`). -/
def storePath (s : JSVal) : List String → Option JSVal
  | [] => some s
  | k :: rest =>
    match s with
    | .obj fs =>
      match lookupA k fs with
      | some v => storePath v rest
      | none => none
    | _ => none

/-- Read the numeric leaf `C.path[e]` of component `c`'s store. -/
def readStoreLeaf (w : World) (c : Nat) (path : List String) (e : Nat) :
    Option Int :=
  match lookupA c w.stores with
  | some s =>
    match storePath s path with
    | some (.arr es) => es[e]?
    | _ => none
  | none => none

/-! ### Association-list and list lemmas -/

theorem lookupA_setA_self {κ α : Type} [DecidableEq κ] (k : κ) (v : α)
    (l : List (κ × α)) : lookupA k (setA k v l) = some v := by
  induction l with
  | nil => simp [lookupA, setA]
  | cons h t ih =>
    by_cases hk : h.1 = k <;> simp [lookupA, setA, hk, ih]

theorem lookupA_setA_ne {κ α : Type} [DecidableEq κ] (k k' : κ) (v : α)
    (l : List (κ × α)) (h : k ≠ k') : lookupA k' (setA k v l) = lookupA k' l := by
  induction l with
  | nil => simp [lookupA, setA, h]
  | cons hd t ih =>
    by_cases hk : hd.1 = k
    · subst hk
      simp [lookupA, setA, h]
    · by_cases hk' : hd.1 = k' <;>
        simp [lookupA, setA, hk, hk', Ne.symm h, ih]

theorem setA_self_of_lookupA {κ α : Type} [DecidableEq κ] (k : κ) (v : α)
    (l : List (κ × α)) (h : lookupA k l = some v) : setA k v l = l := by
  induction l with
  | nil => simp [lookupA] at h
  | cons hd t ih =>
    cases hd with
    | mk k1 v1 =>
      by_cases hk : k1 = k
      · subst hk
        simp [lookupA] at h
        simp [setA, h]
      · simp [lookupA, hk] at h
        simp [setA, hk, ih h]

theorem mem_of_lookupA {κ α : Type} [DecidableEq κ] (k : κ) (v : α)
    (l : List (κ × α)) (h : lookupA k l = some v) : (k, v) ∈ l := by
  induction l with
  | nil => simp [lookupA] at h
  | cons hd t ih =>
    cases hd with
    | mk k1 v1 =>
      by_cases hk : k1 = k
      · subst hk
        simp [lookupA] at h
        subst h
        exact List.mem_cons_self _ _
      · simp [lookupA, hk] at h
        exact List.mem_cons_of_mem _ (ih h)

theorem getE_set_self {α : Type} (l : List α) (i : Nat) (a : α)
    (h : i < l.length) : (l.set i a)[i]? = some a := by
  induction l generalizing i with
  | nil => simp at h
  | cons hd t ih =>
    cases i with
    | zero => simp
    | succ j => simpa using ih j (by simpa using h)

theorem getE_set_ne {α : Type} (l : List α) (i j : Nat) (a : α)
    (h : i ≠ j) : (l.set i a)[j]? = l[j]? := by
  induction l generalizing i j with
  | nil => simp
  | cons hd t ih =>
    cases i with
    | zero =>
      cases j with
      | zero => exact absurd rfl h
      | succ j' => simp
    | succ i' =>
      cases j with
      | zero => simp
      | succ j' => simpa using ih i' j' (by omega)

theorem getD_set_self {α : Type} (l : List α) (i : Nat) (a d : α)
    (h : i < l.length) : (l.set i a).getD i d = a := by
  simp [List.getD, getE_set_self l i a h]

theorem getD_set_ne {α : Type} (l : List α) (i j : Nat) (a d : α)
    (h : i ≠ j) : (l.set i a).getD j d = l.getD j d := by
  simp [List.getD, getE_set_ne l i j a h]

theorem getD_eq_of_getE {α : Type} (l : List α) (i : Nat) (a d : α)
    (h : l[i]? = some a) : l.getD i d = a := by
  simp [List.getD, h]

/-! ### 32-bit arithmetic lemmas -/

theorem mask32_eq_mod_pow (n : Nat) : mask32 n = n % 2 ^ 32 := by
  norm_num [mask32]

theorem mask32_lt (n : Nat) : mask32 n < 4294967296 :=
  Nat.mod_lt _ (by norm_num)

theorem mask32_of_lt {n : Nat} (h : n < 4294967296) : mask32 n = n :=
  Nat.mod_eq_of_lt h

theorem mask32_testBit (n j : Nat) :
    (mask32 n).testBit j = (decide (j < 32) && n.testBit j) := by
  rw [mask32_eq_mod_pow, Nat.testBit_mod_two_pow]

theorem toInt32_of_lt {n : Nat} (h : n < 2147483648) : toInt32 n = n := by
  have h32 : mask32 n = n := mask32_of_lt (by omega)
  simp [toInt32, h32, h]

theorem pow_lt_32 {k : Nat} (hk : k < 32) : 2 ^ k < 4294967296 := by
  have : (2 : Nat) ^ k < 2 ^ 32 := Nat.pow_lt_pow_right (by norm_num) hk
  omega

theorem mask32_pow {k : Nat} (hk : k < 32) : mask32 (2 ^ k) = 2 ^ k :=
  mask32_of_lt (pow_lt_32 hk)

theorem land_pow (m k : Nat) : m &&& 2 ^ k = if m.testBit k then 2 ^ k else 0 := by
  apply Nat.eq_of_testBit_eq
  intro j
  rw [Nat.testBit_and, Nat.testBit_two_pow]
  by_cases hmk : m.testBit k
  · by_cases hkj : k = j
    · simp [hkj, hkj ▸ hmk]
    · simp [hkj, hmk]
  · by_cases hkj : k = j
    · simp [hkj, hkj ▸ (Bool.not_eq_true _ ▸ hmk : m.testBit k = false)]
    · simp [hkj, hmk]

theorem land_mask32_pow (m k : Nat) (hk : k < 32) :
    mask32 m &&& 2 ^ k = m &&& 2 ^ k := by
  apply Nat.eq_of_testBit_eq
  intro j
  rw [Nat.testBit_and, Nat.testBit_and, mask32_testBit]
  by_cases hkj : k = j
  · subst hkj
    simp [hk]
  · simp [Nat.testBit_two_pow_of_ne hkj]

theorem land_pow_le (m k : Nat) : m &&& 2 ^ k ≤ 2 ^ k := by
  rw [land_pow]
  split
  · exact le_rfl
  · exact Nat.zero_le _

theorem hasCond_iff (m k : Nat) (hk : k < 31) :
    (toInt32 (mask32 m &&& mask32 (2 ^ k)) = ((2 ^ k : Nat) : Int))
      ↔ m &&& 2 ^ k = 2 ^ k := by
  rw [mask32_pow (by omega), land_mask32_pow m k (by omega)]
  have hle : m &&& 2 ^ k ≤ 2 ^ k := land_pow_le m k
  have hlt : m &&& 2 ^ k < 2147483648 := by
    have : (2 : Nat) ^ k < 2 ^ 31 := Nat.pow_lt_pow_right (by norm_num) hk
    omega
  rw [toInt32_of_lt hlt]
  constructor
  · intro h
    exact_mod_cast h
  · intro h
    exact_mod_cast congrArg (Nat.cast : Nat → Int) h

theorem land_lor_self (m b : Nat) : (m ||| b) &&& b = b := by
  apply Nat.eq_of_testBit_eq
  intro j
  rw [Nat.testBit_and, Nat.testBit_or]
  cases m.testBit j <;> cases b.testBit j <;> rfl

theorem lor_eq_self_of_land (m b : Nat) (h : m &&& b = b) : m ||| b = m := by
  apply Nat.eq_of_testBit_eq
  intro j
  have hj := congrArg (fun x => Nat.testBit x j) h
  simp only [Nat.testBit_and] at hj
  rw [Nat.testBit_or]
  cases hb : b.testBit j
  · simp
  · rw [hb] at hj
    simp at hj
    simp [hj]

theorem testBit_allones_sub_pow (k i : Nat) (hk : k < 32) :
    (4294967295 - 2 ^ k).testBit i = (decide (i < 32) && !(2 ^ k).testBit i) := by
  have hlt : (2 : Nat) ^ k < 2 ^ 32 := by
    have := pow_lt_32 hk
    omega
  have heq : (4294967295 : Nat) - 2 ^ k = 2 ^ 32 - (2 ^ k + 1) := by omega
  rw [heq, Nat.testBit_two_pow_sub_succ hlt]

theorem allones_sub_pow_land_pow (k : Nat) (hk : k < 32) :
    (4294967295 - 2 ^ k) &&& 2 ^ k = 0 := by
  apply Nat.eq_of_testBit_eq
  intro j
  rw [Nat.testBit_and, testBit_allones_sub_pow k j hk]
  by_cases hkj : k = j
  · subst hkj
    simp
  · simp [Nat.testBit_two_pow_of_ne hkj]

theorem land_allones_sub_pow_self (m k : Nat) (hm : m < 4294967296)
    (hk : k < 32) (h : m.testBit k = false) :
    m &&& (4294967295 - 2 ^ k) = m := by
  apply Nat.eq_of_testBit_eq
  intro j
  rw [Nat.testBit_and, testBit_allones_sub_pow k j hk]
  by_cases hj : j < 32
  · by_cases hkj : k = j
    · subst hkj
      simp [h]
    · simp [hj, Nat.testBit_two_pow_of_ne hkj]
  · have : m.testBit j = false := by
      apply Nat.testBit_lt_two_pow
      calc m < 4294967296 := hm
        _ = 2 ^ 32 := by norm_num
        _ ≤ 2 ^ j := Nat.pow_le_pow_right (by norm_num) (by omega)
    simp [this]

theorem jsOr_eq_lor (m b : Nat) (hm : m < 4294967296) (hb : b < 4294967296) :
    jsOr m b = m ||| b := by
  simp [jsOr, mask32_of_lt hm, mask32_of_lt hb]

theorem jsAndNot_eq (m b : Nat) (hm : m < 4294967296) (hb : b < 4294967296) :
    jsAndNot m b = m &&& (4294967295 - b) := by
  simp [jsAndNot, mask32_of_lt hm, mask32_of_lt hb]

theorem jsOr_lt (m b : Nat) : jsOr m b < 4294967296 := by
  have h1 := mask32_lt m
  have h2 := mask32_lt b
  have : mask32 m ||| mask32 b < 2 ^ 32 := by
    apply Nat.lt_pow_two_of_testBit
    intro i hi
    rw [Nat.testBit_or]
    have e1 : (mask32 m).testBit i = false := by
      apply Nat.testBit_lt_two_pow
      have : (2 : Nat) ^ 32 ≤ 2 ^ i := Nat.pow_le_pow_right (by norm_num) hi
      omega
    have e2 : (mask32 b).testBit i = false := by
      apply Nat.testBit_lt_two_pow
      have : (2 : Nat) ^ 32 ≤ 2 ^ i := Nat.pow_le_pow_right (by norm_num) hi
      omega
    simp [e1, e2]
  simpa [jsOr] using this

theorem jsAndNot_lt (m b : Nat) : jsAndNot m b < 4294967296 := by
  have h1 := mask32_lt m
  have : jsAndNot m b ≤ mask32 m := Nat.and_le_left
  omega

theorem jsOr_land_pow (m k : Nat) (hk : k < 32) :
    jsOr m (2 ^ k) &&& 2 ^ k = 2 ^ k := by
  rw [land_pow]
  have : (jsOr m (2 ^ k)).testBit k = true := by
    rw [jsOr, Nat.testBit_or, mask32_pow hk, Nat.testBit_two_pow_self]
    simp
  simp [this]

theorem jsAndNot_land_pow (m k : Nat) (hk : k < 32) :
    jsAndNot m (2 ^ k) &&& 2 ^ k = 0 := by
  rw [jsAndNot, mask32_pow hk, Nat.land_assoc, allones_sub_pow_land_pow k hk]
  apply Nat.eq_of_testBit_eq
  intro j
  simp [Nat.testBit_and]

/-! ### Frame lemmas: the query-synchronization loop touches only `queries`,
the mask writes touch only `entityMasks`, and so on. -/

theorem sync_frame (e : Nat) (w : World) (i : Nat) :
    (syncQueryForEntity e w i).size = w.size ∧
    (syncQueryForEntity e w i).bitflag = w.bitflag ∧
    (syncQueryForEntity e w i).entityMasks = w.entityMasks ∧
    (syncQueryForEntity e w i).componentMap = w.componentMap ∧
    (syncQueryForEntity e w i).entitySparseSet = w.entitySparseSet ∧
    (syncQueryForEntity e w i).entityComponents = w.entityComponents ∧
    (syncQueryForEntity e w i).stores = w.stores ∧
    (syncQueryForEntity e w i).queries.length = w.queries.length := by
  cases h : w.queries[i]? <;> simp [syncQueryForEntity, h]

theorem foldSync_frame (e : Nat) (idxs : List Nat) :
    ∀ w : World,
    (idxs.foldl (syncQueryForEntity e) w).size = w.size ∧
    (idxs.foldl (syncQueryForEntity e) w).bitflag = w.bitflag ∧
    (idxs.foldl (syncQueryForEntity e) w).entityMasks = w.entityMasks ∧
    (idxs.foldl (syncQueryForEntity e) w).componentMap = w.componentMap ∧
    (idxs.foldl (syncQueryForEntity e) w).entitySparseSet = w.entitySparseSet ∧
    (idxs.foldl (syncQueryForEntity e) w).entityComponents = w.entityComponents ∧
    (idxs.foldl (syncQueryForEntity e) w).stores = w.stores ∧
    (idxs.foldl (syncQueryForEntity e) w).queries.length = w.queries.length := by
  induction idxs with
  | nil => intro w; exact ⟨rfl, rfl, rfl, rfl, rfl, rfl, rfl, rfl⟩
  | cons j t ih =>
    intro w
    have h1 := sync_frame e w j
    have h2 := ih (syncQueryForEntity e w j)
    rw [List.foldl_cons]
    exact ⟨h2.1.trans h1.1, h2.2.1.trans h1.2.1, h2.2.2.1.trans h1.2.2.1,
      h2.2.2.2.1.trans h1.2.2.2.1, h2.2.2.2.2.1.trans h1.2.2.2.2.1,
      h2.2.2.2.2.2.1.trans h1.2.2.2.2.2.1, h2.2.2.2.2.2.2.1.trans h1.2.2.2.2.2.2.1,
      h2.2.2.2.2.2.2.2.trans h1.2.2.2.2.2.2.2⟩

theorem withMaskOr_frame (w : World) (g eid b : Nat) :
    (withMaskOr w g eid b).size = w.size ∧
    (withMaskOr w g eid b).bitflag = w.bitflag ∧
    (withMaskOr w g eid b).componentMap = w.componentMap ∧
    (withMaskOr w g eid b).entitySparseSet = w.entitySparseSet ∧
    (withMaskOr w g eid b).entityComponents = w.entityComponents ∧
    (withMaskOr w g eid b).stores = w.stores ∧
    (withMaskOr w g eid b).queries = w.queries := by
  cases h : w.entityMasks[g]? <;> simp [withMaskOr, h]

theorem withMaskAndNot_frame (w : World) (g eid b : Nat) :
    (withMaskAndNot w g eid b).size = w.size ∧
    (withMaskAndNot w g eid b).bitflag = w.bitflag ∧
    (withMaskAndNot w g eid b).componentMap = w.componentMap ∧
    (withMaskAndNot w g eid b).entitySparseSet = w.entitySparseSet ∧
    (withMaskAndNot w g eid b).entityComponents = w.entityComponents ∧
    (withMaskAndNot w g eid b).stores = w.stores ∧
    (withMaskAndNot w g eid b).queries = w.queries := by
  cases h : w.entityMasks[g]? <;> simp [withMaskAndNot, h]

theorem resetStoreOf_frame (w : World) (c eid : Nat) :
    (resetStoreOf w c eid).size = w.size ∧
    (resetStoreOf w c eid).bitflag = w.bitflag ∧
    (resetStoreOf w c eid).entityMasks = w.entityMasks ∧
    (resetStoreOf w c eid).componentMap = w.componentMap ∧
    (resetStoreOf w c eid).entitySparseSet = w.entitySparseSet ∧
    (resetStoreOf w c eid).entityComponents = w.entityComponents ∧
    (resetStoreOf w c eid).queries = w.queries := by
  cases h : lookupA c w.stores <;> simp [resetStoreOf, h]

theorem registerComponent_frame (w : World) (c : Nat) :
    (registerComponent w c).size = w.size ∧
    (registerComponent w c).entitySparseSet = w.entitySparseSet ∧
    (registerComponent w c).entityComponents = w.entityComponents ∧
    (registerComponent w c).queries = w.queries ∧
    (registerComponent w c).stores = w.stores := by
  simp only [registerComponent, incrementBitflag]
  split <;> simp

/-! ### Congruence: `hasComponent` and the query predicate read only the
component map and the masks. -/

theorem hasComponent_congr (w1 w2 : World) (c e : Nat)
    (h1 : w1.componentMap = w2.componentMap)
    (h2 : w1.entityMasks = w2.entityMasks) :
    hasComponent w1 c e = hasComponent w2 c e := by
  simp [hasComponent, maskAt, h1, h2]

theorem queryCheckEntity_congr (w1 w2 : World) (q : Query) (e : Nat)
    (h1 : w1.componentMap = w2.componentMap)
    (h2 : w1.entityMasks = w2.entityMasks) :
    queryCheckEntity w1 q e = queryCheckEntity w2 q e := by
  have hf : (fun c => hasComponent w1 c e) = fun c => hasComponent w2 c e :=
    funext (fun c => hasComponent_congr w1 w2 c e h1 h2)
  simp [queryCheckEntity, hf]

theorem qtransform_congr (w1 w2 : World) (e : Nat) (q : Query)
    (h1 : w1.componentMap = w2.componentMap)
    (h2 : w1.entityMasks = w2.entityMasks) :
    qtransform w1 e q = qtransform w2 e q := by
  have hc : ∀ q' : Query, queryCheckEntity w1 q' e = queryCheckEntity w2 q' e :=
    fun q' => queryCheckEntity_congr w1 w2 q' e h1 h2
  simp only [qtransform, hc]

/-- Characterization of the query-synchronization fold: with duplicate-free
interest indices, each interested query is rewritten by the shared
per-query body `qtransform` evaluated against the (already mask-toggled)
world, and every other query is untouched. -/
theorem foldSync_queries_get (e : Nat) (idxs : List Nat) (hnd : idxs.Nodup) :
    ∀ (w : World) (i : Nat),
    (idxs.foldl (syncQueryForEntity e) w).queries[i]? =
      if i ∈ idxs then (w.queries[i]?).map (fun q => qtransform w e q)
      else w.queries[i]? := by
  induction idxs with
  | nil => intro w i; simp
  | cons j t ih =>
    intro w i
    have hnd' : t.Nodup := (List.nodup_cons.mp hnd).2
    have hjt : j ∉ t := (List.nodup_cons.mp hnd).1
    rw [List.foldl_cons]
    have hframe := sync_frame e w j
    have hqt : (fun q => qtransform (syncQueryForEntity e w j) e q)
        = fun q => qtransform w e q :=
      funext (fun q => qtransform_congr _ w e q hframe.2.2.2.1 hframe.2.2.1)
    by_cases hij : i = j
    · subst hij
      have hnotmem : i ∉ t := hjt
      rw [ih hnd' (syncQueryForEntity e w i) i, if_neg hnotmem]
      cases hq : w.queries[i]? with
      | none => simp [syncQueryForEntity, hq]
      | some q =>
        have hlen : i < w.queries.length := by
          rcases List.getElem?_eq_some_iff.mp hq with ⟨hl, _⟩
          exact hl
        simp only [syncQueryForEntity, hq]
        rw [getE_set_self _ _ _ hlen]
        simp [hq]
    · have hstep : (syncQueryForEntity e w j).queries[i]? = w.queries[i]? := by
        cases hq : w.queries[j]? with
        | none => simp [syncQueryForEntity, hq]
        | some q =>
          simp only [syncQueryForEntity, hq]
          exact getE_set_ne _ j i _ (fun hh => hij hh.symm)
      rw [ih hnd' (syncQueryForEntity e w j) i, hstep, hqt]
      by_cases hit : i ∈ t
      · rw [if_pos hit, if_pos (List.mem_cons_of_mem j hit)]
      · rw [if_neg hit, if_neg (by simp [hij, hit])]

theorem interestedIdxs_nodup (qs : List Query) (c : Nat) :
    (interestedIdxs qs c).Nodup := by
  have hsub : List.Sublist
      ((qs.enum.filter (fun p => p.2.allComponents.contains c)).map Prod.fst)
      (qs.enum.map Prod.fst) :=
    List.Sublist.map _ (List.filter_sublist _)
  have hrange : qs.enum.map Prod.fst = List.range qs.length := List.enum_map_fst qs
  have hnd : ((qs.enum.filter (fun p => p.2.allComponents.contains c)).map Prod.fst).Nodup :=
    List.Nodup.sublist hsub (hrange ▸ List.nodup_range qs.length)
  simpa [interestedIdxs] using hnd

/-! ### Characterization of the operations on their main paths -/

theorem addComponent_none_err (w : World) (c : Nat) (reset : Bool) :
    addComponent w c none reset = .err entityUndefinedMsg w := rfl

theorem removeComponent_none_err (w : World) (c : Nat) (reset : Bool) :
    removeComponent w c none reset = .err entityUndefinedMsg w := rfl

theorem updateComponent_none_err (w : World) (c : Nat) (d : JSVal) :
    updateComponent w c none d = .err entityUndefinedMsg w := rfl

theorem addComponent_notfound_err (w : World) (c e : Nat) (reset : Bool)
    (hne : e ∉ w.entitySparseSet) :
    addComponent w c (some e) reset = .err entityNotFoundMsg w := by
  simp [addComponent, hne]

theorem removeComponent_notfound_err (w : World) (c e : Nat) (reset : Bool)
    (hne : e ∉ w.entitySparseSet) :
    removeComponent w c (some e) reset = .err entityNotFoundMsg w := by
  simp [removeComponent, hne]

theorem updateComponent_notfound_err (w : World) (c e : Nat) (d : JSVal)
    (hne : e ∉ w.entitySparseSet) :
    updateComponent w c (some e) d = .err entityNotFoundMsg w := by
  simp [updateComponent, hne]

theorem isSome_componentMap_of_has (w : World) (c e : Nat)
    (hhas : hasComponent w c e = true) : (lookupA c w.componentMap).isSome := by
  unfold hasComponent at hhas
  cases h : lookupA c w.componentMap with
  | none => rw [h] at hhas; simp at hhas
  | some r => simp

theorem addComponent_ok_of_has (w : World) (c e : Nat) (reset : Bool)
    (he : e ∈ w.entitySparseSet) (hhas : hasComponent w c e = true) :
    addComponent w c (some e) reset = .ok w := by
  have hsome := isSome_componentMap_of_has w c e hhas
  simp [addComponent, he, hsome, hhas]

theorem removeComponent_ok_of_not_has (w : World) (c e : Nat)
    (reset : Bool) (he : e ∈ w.entitySparseSet)
    (hhas : hasComponent w c e = false) :
    removeComponent w c (some e) reset = .ok w := by
  simp [removeComponent, he, hhas]

theorem hasComponent_of_unregistered (w : World) (c e : Nat)
    (hnone : lookupA c w.componentMap = none) :
    hasComponent w c e = false := by
  unfold hasComponent
  rw [hnone]

theorem updateComponent_ok_of_not_has (w : World) (c e : Nat) (d : JSVal)
    (he : e ∈ w.entitySparseSet) (hhas : hasComponent w c e = false) :
    updateComponent w c (some e) d = .ok w := by
  simp [updateComponent, he, hhas]

theorem addComponent_ok_main (w : World) (c e : Nat) (reset : Bool)
    (r : CompRecord) (row : List Nat) (s : List Nat)
    (he : e ∈ w.entitySparseSet)
    (hreg : lookupA c w.componentMap = some r)
    (hhas : hasComponent w c e = false)
    (hrow : w.entityMasks[r.generationId]? = some row)
    (hs : lookupA e w.entityComponents = some s) :
    addComponent w c (some e) reset = .ok (addPostState w c e reset r s) := by
  have hframe1 := withMaskOr_frame w r.generationId e r.bitflag
  have hframe2 := foldSync_frame e r.queries (withMaskOr w r.generationId e r.bitflag)
  have hec : lookupA e (r.queries.foldl (syncQueryForEntity e)
      (withMaskOr w r.generationId e r.bitflag)).entityComponents = some s := by
    rw [hframe2.2.2.2.2.2.1, hframe1.2.2.2.2.1, hs]
  simp [addComponent, addPostState, he, hreg, hhas, hrow, hec]

theorem removeComponent_ok_main (w : World) (c e : Nat) (reset : Bool)
    (r : CompRecord) (row : List Nat) (s : List Nat)
    (he : e ∈ w.entitySparseSet)
    (hreg : lookupA c w.componentMap = some r)
    (hhas : hasComponent w c e = true)
    (hrow : w.entityMasks[r.generationId]? = some row)
    (hs : lookupA e w.entityComponents = some s) :
    removeComponent w c (some e) reset = .ok (removePostState w c e reset r s) := by
  have hframe1 := withMaskAndNot_frame w r.generationId e r.bitflag
  have hframe2 := foldSync_frame e r.queries (withMaskAndNot w r.generationId e r.bitflag)
  have hec : lookupA e (r.queries.foldl (syncQueryForEntity e)
      (withMaskAndNot w r.generationId e r.bitflag)).entityComponents = some s := by
    rw [hframe2.2.2.2.2.2.1, hframe1.2.2.2.2.1, hs]
  simp [removeComponent, removePostState, he, hreg, hhas, hrow, hec]

theorem addPostState_frame (w : World) (c e : Nat) (reset : Bool)
    (r : CompRecord) (s : List Nat) :
    (addPostState w c e reset r s).size = w.size ∧
    (addPostState w c e reset r s).bitflag = w.bitflag ∧
    (addPostState w c e reset r s).componentMap = w.componentMap ∧
    (addPostState w c e reset r s).entitySparseSet = w.entitySparseSet ∧
    (addPostState w c e reset r s).entityMasks
      = (withMaskOr w r.generationId e r.bitflag).entityMasks ∧
    (addPostState w c e reset r s).entityComponents
      = setA e (saddList s c) w.entityComponents := by
  have h1 := withMaskOr_frame w r.generationId e r.bitflag
  have h2 := foldSync_frame e r.queries (withMaskOr w r.generationId e r.bitflag)
  unfold addPostState
  cases reset with
  | false =>
    simp only [if_neg (by simp : ¬(False = True)), Bool.false_eq_true, if_false]
    refine ⟨h2.1.trans h1.1, h2.2.1.trans h1.2.1, h2.2.2.2.1.trans h1.2.2.1,
      h2.2.2.2.2.1.trans h1.2.2.2.1, h2.2.2.1, ?_⟩
    rw [h2.2.2.2.2.2.1, h1.2.2.2.2.1]
  | true =>
    simp only [if_pos]
    have h3 := resetStoreOf_frame
      { (r.queries.foldl (syncQueryForEntity e) (withMaskOr w r.generationId e r.bitflag)) with
        entityComponents := setA e (saddList s c)
          (r.queries.foldl (syncQueryForEntity e) (withMaskOr w r.generationId e r.bitflag)).entityComponents } c e
    refine ⟨h3.1.trans (h2.1.trans h1.1), h3.2.1.trans (h2.2.1.trans h1.2.1),
      h3.2.2.2.1.trans (h2.2.2.2.1.trans h1.2.2.1),
      h3.2.2.2.2.1.trans (h2.2.2.2.2.1.trans h1.2.2.2.1),
      h3.2.2.1.trans h2.2.2.1, ?_⟩
    rw [h3.2.2.2.2.2.1]
    show setA e (saddList s c) _ = _
    rw [h2.2.2.2.2.2.1, h1.2.2.2.2.1]

theorem removePostState_frame (w : World) (c e : Nat) (reset : Bool)
    (r : CompRecord) (s : List Nat) :
    (removePostState w c e reset r s).size = w.size ∧
    (removePostState w c e reset r s).bitflag = w.bitflag ∧
    (removePostState w c e reset r s).componentMap = w.componentMap ∧
    (removePostState w c e reset r s).entitySparseSet = w.entitySparseSet ∧
    (removePostState w c e reset r s).entityMasks
      = (withMaskAndNot w r.generationId e r.bitflag).entityMasks ∧
    (removePostState w c e reset r s).entityComponents
      = setA e (sremoveList s c) w.entityComponents := by
  have h1 := withMaskAndNot_frame w r.generationId e r.bitflag
  have h2 := foldSync_frame e r.queries (withMaskAndNot w r.generationId e r.bitflag)
  unfold removePostState
  cases reset with
  | false =>
    simp only [Bool.false_eq_true, if_false]
    refine ⟨h2.1.trans h1.1, h2.2.1.trans h1.2.1, h2.2.2.2.1.trans h1.2.2.1,
      h2.2.2.2.2.1.trans h1.2.2.2.1, h2.2.2.1, ?_⟩
    rw [h2.2.2.2.2.2.1, h1.2.2.2.2.1]
  | true =>
    simp only [if_pos]
    have h3 := resetStoreOf_frame
      { (r.queries.foldl (syncQueryForEntity e) (withMaskAndNot w r.generationId e r.bitflag)) with
        entityComponents := setA e (sremoveList s c)
          (r.queries.foldl (syncQueryForEntity e) (withMaskAndNot w r.generationId e r.bitflag)).entityComponents } c e
    refine ⟨h3.1.trans (h2.1.trans h1.1), h3.2.1.trans (h2.2.1.trans h1.2.1),
      h3.2.2.2.1.trans (h2.2.2.2.1.trans h1.2.2.1),
      h3.2.2.2.2.1.trans (h2.2.2.2.2.1.trans h1.2.2.2.1),
      h3.2.2.1.trans h2.2.2.1, ?_⟩
    rw [h3.2.2.2.2.2.1]
    show setA e (sremoveList s c) _ = _
    rw [h2.2.2.2.2.2.1, h1.2.2.2.2.1]

theorem addPostState_stores_noreset (w : World) (c e : Nat)
    (r : CompRecord) (s : List Nat) :
    (addPostState w c e false r s).stores = w.stores := by
  have h1 := withMaskOr_frame w r.generationId e r.bitflag
  have h2 := foldSync_frame e r.queries (withMaskOr w r.generationId e r.bitflag)
  unfold addPostState
  simp only [Bool.false_eq_true, if_false]
  exact h2.2.2.2.2.2.2.1.trans h1.2.2.2.2.2.1

theorem removePostState_stores_noreset (w : World) (c e : Nat)
    (r : CompRecord) (s : List Nat) :
    (removePostState w c e false r s).stores = w.stores := by
  have h1 := withMaskAndNot_frame w r.generationId e r.bitflag
  have h2 := foldSync_frame e r.queries (withMaskAndNot w r.generationId e r.bitflag)
  unfold removePostState
  simp only [Bool.false_eq_true, if_false]
  exact h2.2.2.2.2.2.2.1.trans h1.2.2.2.2.2.1

theorem removePostState_stores_reset (w : World) (c e : Nat)
    (r : CompRecord) (s : List Nat) (st : JSVal)
    (hst : lookupA c w.stores = some st) :
    lookupA c (removePostState w c e true r s).stores
      = some (resetStoreFor st e) := by
  have h1 := withMaskAndNot_frame w r.generationId e r.bitflag
  have h2 := foldSync_frame e r.queries (withMaskAndNot w r.generationId e r.bitflag)
  unfold removePostState
  simp only [if_pos]
  unfold resetStoreOf
  have hw3 : ({ (r.queries.foldl (syncQueryForEntity e) (withMaskAndNot w r.generationId e r.bitflag)) with
      entityComponents := setA e (sremoveList s c)
        (r.queries.foldl (syncQueryForEntity e) (withMaskAndNot w r.generationId e r.bitflag)).entityComponents } : World).stores
      = w.stores := h2.2.2.2.2.2.2.1.trans h1.2.2.2.2.2.1
  rw [hw3, hst]
  simp only
  exact lookupA_setA_self c (resetStoreFor st e) w.stores

theorem maskAt_eq_of_masks (w1 w2 : World) (g e : Nat)
    (h : w1.entityMasks = w2.entityMasks) : maskAt w1 g e = maskAt w2 g e := by
  simp [maskAt, h]

theorem maskAt_withMaskOr_self (w : World) (g e b : Nat) (row : List Nat)
    (hrow : w.entityMasks[g]? = some row) (hre : e < row.length) :
    maskAt (withMaskOr w g e b) g e = jsOr (maskAt w g e) b := by
  have hg : g < w.entityMasks.length := (List.getElem?_eq_some_iff.mp hrow).1
  unfold withMaskOr maskAt
  rw [hrow]
  simp only
  rw [getD_set_self _ _ _ _ hg, getD_set_self _ _ _ _ hre,
    getD_eq_of_getE _ _ _ _ hrow]

theorem maskAt_withMaskOr_other (w : World) (g e b g' e' : Nat)
    (hne : g' ≠ g ∨ e' ≠ e) :
    maskAt (withMaskOr w g e b) g' e' = maskAt w g' e' := by
  cases hrow : w.entityMasks[g]? with
  | none => simp [withMaskOr, hrow]
  | some row =>
    have hg : g < w.entityMasks.length := (List.getElem?_eq_some_iff.mp hrow).1
    unfold withMaskOr maskAt
    rw [hrow]
    simp only
    rcases hne with hg' | he'
    · rw [getD_set_ne _ _ _ _ _ (fun hh => hg' hh.symm)]
    · by_cases hgg : g' = g
      · subst hgg
        rw [getD_set_self _ _ _ _ hg, getD_set_ne _ _ _ _ _ (fun hh => he' hh.symm),
          getD_eq_of_getE _ _ _ _ hrow]
      · rw [getD_set_ne _ _ _ _ _ (fun hh => hgg hh.symm)]

theorem maskAt_withMaskAndNot_self (w : World) (g e b : Nat) (row : List Nat)
    (hrow : w.entityMasks[g]? = some row) (hre : e < row.length) :
    maskAt (withMaskAndNot w g e b) g e = jsAndNot (maskAt w g e) b := by
  have hg : g < w.entityMasks.length := (List.getElem?_eq_some_iff.mp hrow).1
  unfold withMaskAndNot maskAt
  rw [hrow]
  simp only
  rw [getD_set_self _ _ _ _ hg, getD_set_self _ _ _ _ hre,
    getD_eq_of_getE _ _ _ _ hrow]

theorem maskAt_withMaskAndNot_other (w : World) (g e b g' e' : Nat)
    (hne : g' ≠ g ∨ e' ≠ e) :
    maskAt (withMaskAndNot w g e b) g' e' = maskAt w g' e' := by
  cases hrow : w.entityMasks[g]? with
  | none => simp [withMaskAndNot, hrow]
  | some row =>
    have hg : g < w.entityMasks.length := (List.getElem?_eq_some_iff.mp hrow).1
    unfold withMaskAndNot maskAt
    rw [hrow]
    simp only
    rcases hne with hg' | he'
    · rw [getD_set_ne _ _ _ _ _ (fun hh => hg' hh.symm)]
    · by_cases hgg : g' = g
      · subst hgg
        rw [getD_set_self _ _ _ _ hg, getD_set_ne _ _ _ _ _ (fun hh => he' hh.symm),
          getD_eq_of_getE _ _ _ _ hrow]
      · rw [getD_set_ne _ _ _ _ _ (fun hh => hgg hh.symm)]

theorem hasComponent_addPostState (w : World) (c e : Nat) (reset : Bool)
    (r : CompRecord) (s : List Nat) (row : List Nat) (k : Nat)
    (hreg : lookupA c w.componentMap = some r)
    (hk : k < 31) (hb : r.bitflag = 2 ^ k)
    (hrow : w.entityMasks[r.generationId]? = some row) (hre : e < row.length) :
    hasComponent (addPostState w c e reset r s) c e = true := by
  have hframe := addPostState_frame w c e reset r s
  unfold hasComponent
  rw [hframe.2.2.1, hreg]
  apply decide_eq_true
  have hmask : maskAt (addPostState w c e reset r s) r.generationId e
      = jsOr (maskAt w r.generationId e) r.bitflag := by
    rw [maskAt_eq_of_masks _ (withMaskOr w r.generationId e r.bitflag) _ _ hframe.2.2.2.2.1]
    exact maskAt_withMaskOr_self w r.generationId e r.bitflag row hrow hre
  rw [hmask, hb]
  exact (hasCond_iff _ k hk).mpr (jsOr_land_pow _ k (by omega))

theorem hasComponent_removePostState (w : World) (c e : Nat) (reset : Bool)
    (r : CompRecord) (s : List Nat) (row : List Nat) (k : Nat)
    (hreg : lookupA c w.componentMap = some r)
    (hk : k < 31) (hb : r.bitflag = 2 ^ k)
    (hrow : w.entityMasks[r.generationId]? = some row) (hre : e < row.length) :
    hasComponent (removePostState w c e reset r s) c e = false := by
  have hframe := removePostState_frame w c e reset r s
  unfold hasComponent
  rw [hframe.2.2.1, hreg]
  apply decide_eq_false
  have hmask : maskAt (removePostState w c e reset r s) r.generationId e
      = jsAndNot (maskAt w r.generationId e) r.bitflag := by
    rw [maskAt_eq_of_masks _ (withMaskAndNot w r.generationId e r.bitflag) _ _ hframe.2.2.2.2.1]
    exact maskAt_withMaskAndNot_self w r.generationId e r.bitflag row hrow hre
  rw [hmask, hb]
  rw [hasCond_iff _ k hk, jsAndNot_land_pow _ k (by omega)]
  have : (0 : Nat) < 2 ^ k := Nat.pos_pow_of_pos k (by norm_num)
  omega

theorem addPostState_queries_get (w : World) (c e : Nat) (reset : Bool)
    (r : CompRecord) (s : List Nat) (hnd : r.queries.Nodup) (i : Nat) :
    (addPostState w c e reset r s).queries[i]? =
      if i ∈ r.queries
      then (w.queries[i]?).map
        (fun q => qtransform (withMaskOr w r.generationId e r.bitflag) e q)
      else w.queries[i]? := by
  have h1 := withMaskOr_frame w r.generationId e r.bitflag
  have hq : (addPostState w c e reset r s).queries
      = (r.queries.foldl (syncQueryForEntity e)
          (withMaskOr w r.generationId e r.bitflag)).queries := by
    unfold addPostState
    cases reset with
    | false => simp only [Bool.false_eq_true, if_false]
    | true =>
      simp only [if_pos]
      have h3 := resetStoreOf_frame
        { (r.queries.foldl (syncQueryForEntity e) (withMaskOr w r.generationId e r.bitflag)) with
          entityComponents := setA e (saddList s c)
            (r.queries.foldl (syncQueryForEntity e) (withMaskOr w r.generationId e r.bitflag)).entityComponents } c e
      exact h3.2.2.2.2.2.2
  rw [hq, foldSync_queries_get e r.queries hnd
    (withMaskOr w r.generationId e r.bitflag) i, h1.2.2.2.2.2.2]

theorem removePostState_queries_get (w : World) (c e : Nat) (reset : Bool)
    (r : CompRecord) (s : List Nat) (hnd : r.queries.Nodup) (i : Nat) :
    (removePostState w c e reset r s).queries[i]? =
      if i ∈ r.queries
      then (w.queries[i]?).map
        (fun q => qtransform (withMaskAndNot w r.generationId e r.bitflag) e q)
      else w.queries[i]? := by
  have h1 := withMaskAndNot_frame w r.generationId e r.bitflag
  have hq : (removePostState w c e reset r s).queries
      = (r.queries.foldl (syncQueryForEntity e)
          (withMaskAndNot w r.generationId e r.bitflag)).queries := by
    unfold removePostState
    cases reset with
    | false => simp only [Bool.false_eq_true, if_false]
    | true =>
      simp only [if_pos]
      have h3 := resetStoreOf_frame
        { (r.queries.foldl (syncQueryForEntity e) (withMaskAndNot w r.generationId e r.bitflag)) with
          entityComponents := setA e (sremoveList s c)
            (r.queries.foldl (syncQueryForEntity e) (withMaskAndNot w r.generationId e r.bitflag)).entityComponents } c e
      exact h3.2.2.2.2.2.2
  rw [hq, foldSync_queries_get e r.queries hnd
    (withMaskAndNot w r.generationId e r.bitflag) i, h1.2.2.2.2.2.2]

theorem addComponent_err_noentry (w : World) (c e : Nat) (reset : Bool)
    (r : CompRecord) (row : List Nat)
    (he : e ∈ w.entitySparseSet)
    (hreg : lookupA c w.componentMap = some r)
    (hhas : hasComponent w c e = false)
    (hrow : w.entityMasks[r.generationId]? = some row)
    (hs : lookupA e w.entityComponents = none) :
    addComponent w c (some e) reset
      = .err typeErrMsg (r.queries.foldl (syncQueryForEntity e)
          (withMaskOr w r.generationId e r.bitflag)) := by
  have hframe1 := withMaskOr_frame w r.generationId e r.bitflag
  have hframe2 := foldSync_frame e r.queries (withMaskOr w r.generationId e r.bitflag)
  have hec : lookupA e (r.queries.foldl (syncQueryForEntity e)
      (withMaskOr w r.generationId e r.bitflag)).entityComponents = none := by
    rw [hframe2.2.2.2.2.2.1, hframe1.2.2.2.2.1, hs]
  simp [addComponent, he, hreg, hhas, hrow, hec]

theorem removeComponent_err_noentry (w : World) (c e : Nat) (reset : Bool)
    (r : CompRecord) (row : List Nat)
    (he : e ∈ w.entitySparseSet)
    (hreg : lookupA c w.componentMap = some r)
    (hhas : hasComponent w c e = true)
    (hrow : w.entityMasks[r.generationId]? = some row)
    (hs : lookupA e w.entityComponents = none) :
    removeComponent w c (some e) reset
      = .err typeErrMsg (r.queries.foldl (syncQueryForEntity e)
          (withMaskAndNot w r.generationId e r.bitflag)) := by
  have hframe1 := withMaskAndNot_frame w r.generationId e r.bitflag
  have hframe2 := foldSync_frame e r.queries (withMaskAndNot w r.generationId e r.bitflag)
  have hec : lookupA e (r.queries.foldl (syncQueryForEntity e)
      (withMaskAndNot w r.generationId e r.bitflag)).entityComponents = none := by
    rw [hframe2.2.2.2.2.2.1, hframe1.2.2.2.2.1, hs]
  simp [removeComponent, he, hreg, hhas, hrow, hec]

theorem addComponent_ok_cases (w : World) (c e : Nat) (reset : Bool)
    (r : CompRecord) (row : List Nat) (w' : World)
    (he : e ∈ w.entitySparseSet)
    (hreg : lookupA c w.componentMap = some r)
    (hhas : hasComponent w c e = false)
    (hrow : w.entityMasks[r.generationId]? = some row)
    (hok : addComponent w c (some e) reset = .ok w') :
    ∃ s, lookupA e w.entityComponents = some s
      ∧ w' = addPostState w c e reset r s := by
  cases hs : lookupA e w.entityComponents with
  | none =>
    rw [addComponent_err_noentry w c e reset r row he hreg hhas hrow hs] at hok
    exact absurd hok (by simp)
  | some s =>
    rw [addComponent_ok_main w c e reset r row s he hreg hhas hrow hs] at hok
    exact ⟨s, rfl, (Res.ok.inj hok).symm⟩

theorem removeComponent_ok_cases (w : World) (c e : Nat) (reset : Bool)
    (r : CompRecord) (row : List Nat) (w' : World)
    (he : e ∈ w.entitySparseSet)
    (hreg : lookupA c w.componentMap = some r)
    (hhas : hasComponent w c e = true)
    (hrow : w.entityMasks[r.generationId]? = some row)
    (hok : removeComponent w c (some e) reset = .ok w') :
    ∃ s, lookupA e w.entityComponents = some s
      ∧ w' = removePostState w c e reset r s := by
  cases hs : lookupA e w.entityComponents with
  | none =>
    rw [removeComponent_err_noentry w c e reset r row he hreg hhas hrow hs] at hok
    exact absurd hok (by simp)
  | some s =>
    rw [removeComponent_ok_main w c e reset r row s he hreg hhas hrow hs] at hok
    exact ⟨s, rfl, (Res.ok.inj hok).symm⟩

/-! ### The claims -/

/-- Claim C1: Membership invariant. For every world `w`, every component `c`
registered in `w` with record `(g, b)` (where, as registration guarantees,
`b = 2^k` with `k < 31`, the generation exists and the mask word is a 32-bit
value), and every entity `e` (within the generation's word array),
`hasComponent w c e` returns true iff `entityMasks[g][e] &&& b = b`; and
immediately after every `addComponent` or `removeComponent` call returns,
the equivalence still holds: a successful `addComponent` leaves
`entityMasks[g][e]` equal to the old value with exactly bit `b` set (every
other mask word unchanged) and `hasComponent` true, and a successful
`removeComponent` leaves it equal to the old value with exactly bit `b`
cleared (bitwise AND with the 32-bit complement of `b`; every other mask
word unchanged) and `hasComponent` false. -/
theorem C1_membership_invariant
    (w : World) (c e : Nat) (r : CompRecord) (k : Nat) (row : List Nat)
    (hreg : lookupA c w.componentMap = some r)
    (hk : k < 31) (hb : r.bitflag = 2 ^ k)
    (hrow : w.entityMasks[r.generationId]? = some row)
    (hre : e < row.length)
    (hm32 : maskAt w r.generationId e < 4294967296) :
    (hasComponent w c e = true ↔
      maskAt w r.generationId e &&& r.bitflag = r.bitflag)
    ∧ (∀ (reset : Bool) (w' : World),
        addComponent w c (some e) reset = .ok w' →
        maskAt w' r.generationId e = maskAt w r.generationId e ||| r.bitflag
        ∧ (∀ g' e', g' ≠ r.generationId ∨ e' ≠ e →
            maskAt w' g' e' = maskAt w g' e')
        ∧ hasComponent w' c e = true)
    ∧ (∀ (reset : Bool) (w' : World),
        removeComponent w c (some e) reset = .ok w' →
        maskAt w' r.generationId e
          = maskAt w r.generationId e &&& (4294967295 - r.bitflag)
        ∧ (∀ g' e', g' ≠ r.generationId ∨ e' ≠ e →
            maskAt w' g' e' = maskAt w g' e')
        ∧ hasComponent w' c e = false) := by
  have hbit : (2 : Nat) ^ k < 4294967296 := pow_lt_32 (by omega)
  have hiff : hasComponent w c e = true ↔
      maskAt w r.generationId e &&& r.bitflag = r.bitflag := by
    unfold hasComponent
    rw [hreg]
    rw [decide_eq_true_iff]
    rw [hb]
    exact hasCond_iff (maskAt w r.generationId e) k hk
  refine ⟨hiff, ?_, ?_⟩
  · intro reset w' hok
    by_cases he : e ∈ w.entitySparseSet
    · by_cases hhas : hasComponent w c e = true
      · rw [addComponent_ok_of_has w c e reset he hhas] at hok
        have hww : w' = w := (Res.ok.inj hok).symm
        rw [hww]
        have hl : maskAt w r.generationId e &&& r.bitflag = r.bitflag := hiff.mp hhas
        refine ⟨(lor_eq_self_of_land _ _ hl).symm, fun g' e' _ => rfl, hhas⟩
      · have hhas' : hasComponent w c e = false := by
          cases h : hasComponent w c e
          · rfl
          · exact absurd h hhas
        rcases addComponent_ok_cases w c e reset r row w' he hreg hhas' hrow hok
          with ⟨s, hs, hw'⟩
        subst hw'
        have hframe := addPostState_frame w c e reset r s
        have hmask : maskAt (addPostState w c e reset r s) r.generationId e
            = jsOr (maskAt w r.generationId e) r.bitflag := by
          rw [maskAt_eq_of_masks _ (withMaskOr w r.generationId e r.bitflag) _ _
            hframe.2.2.2.2.1]
          exact maskAt_withMaskOr_self w r.generationId e r.bitflag row hrow hre
        refine ⟨?_, ?_, ?_⟩
        · rw [hmask]
          exact jsOr_eq_lor _ _ hm32 (hb ▸ hbit)
        · intro g' e' hne
          rw [maskAt_eq_of_masks _ (withMaskOr w r.generationId e r.bitflag) _ _
            hframe.2.2.2.2.1]
          exact maskAt_withMaskOr_other w r.generationId e r.bitflag g' e' hne
        · exact hasComponent_addPostState w c e reset r s row k hreg hk hb hrow hre
    · rw [addComponent_notfound_err w c e reset he] at hok
      exact absurd hok (by simp)
  · intro reset w' hok
    by_cases he : e ∈ w.entitySparseSet
    · by_cases hhas : hasComponent w c e = true
      · rcases removeComponent_ok_cases w c e reset r row w' he hreg hhas hrow hok
          with ⟨s, hs, hw'⟩
        subst hw'
        have hframe := removePostState_frame w c e reset r s
        have hmask : maskAt (removePostState w c e reset r s) r.generationId e
            = jsAndNot (maskAt w r.generationId e) r.bitflag := by
          rw [maskAt_eq_of_masks _ (withMaskAndNot w r.generationId e r.bitflag) _ _
            hframe.2.2.2.2.1]
          exact maskAt_withMaskAndNot_self w r.generationId e r.bitflag row hrow hre
        refine ⟨?_, ?_, ?_⟩
        · rw [hmask]
          exact jsAndNot_eq _ _ hm32 (hb ▸ hbit)
        · intro g' e' hne
          rw [maskAt_eq_of_masks _ (withMaskAndNot w r.generationId e r.bitflag) _ _
            hframe.2.2.2.2.1]
          exact maskAt_withMaskAndNot_other w r.generationId e r.bitflag g' e' hne
        · exact hasComponent_removePostState w c e reset r s row k hreg hk hb hrow hre
      · have hhas' : hasComponent w c e = false := by
          cases h : hasComponent w c e
          · rfl
          · exact absurd h hhas
        rw [removeComponent_ok_of_not_has w c e reset he hhas'] at hok
        have hww : w' = w := (Res.ok.inj hok).symm
        rw [hww]
        have hnl : ¬(maskAt w r.generationId e &&& r.bitflag = r.bitflag) :=
          fun hl => hhas (hiff.mpr hl)
        have htb : (maskAt w r.generationId e).testBit k = false := by
          by_contra htb'
          have htb'' : (maskAt w r.generationId e).testBit k = true := by
            cases h : (maskAt w r.generationId e).testBit k
            · exact absurd h htb'
            · rfl
          apply hnl
          rw [hb, land_pow, htb'']
          simp
        refine ⟨?_, fun g' e' _ => rfl, hhas'⟩
        rw [hb]
        exact (land_allones_sub_pow_self _ k hm32 (by omega) htb).symm
    · rw [removeComponent_notfound_err w c e reset he] at hok
      exact absurd hok (by simp)

/-- A small concrete world used by the witnesses: capacity 2, two live
entities `0` and `1`, component `5` registered with record `(0, 1)` and
already attached to entity `0` (mask word `1`). -/
def W0 : World :=
  { size := 2, bitflag := 2, entityMasks := [[1, 0]],
    componentMap := [(5, { generationId := 0, bitflag := 1, queries := [] })],
    entitySparseSet := [0, 1],
    entityComponents := [(0, [5]), (1, [])],
    queries := [], stores := [(5, .obj [("hp", .arr [7, 0])])] }

/-- Witness for C1 at the concrete world `W0`, component `5`, entity `0`. -/
theorem C1_witness :
    hasComponent W0 5 0 = true ↔ maskAt W0 0 0 &&& 1 = 1 :=
  (C1_membership_invariant W0 5 0
    { generationId := 0, bitflag := 1, queries := [] } 0 [1, 0]
    rfl (by decide) rfl rfl (by decide) (by decide)).1

/-- The allocation invariant after registering `m` components one at a time
into a fresh world of capacity `n`: capacity and the (empty) query list are
untouched, the cursor sits at `2^(m mod 31)`, there are `m / 31 + 1`
generations, and every generation word array is all-zero of length `n`. -/
theorem registerComponent_step (n m : Nat) (w : World) (c : Nat)
    (hsize : w.size = n) (hq : w.queries = [])
    (hbit : w.bitflag = 2 ^ (m % 31))
    (hlen : w.entityMasks.length = m / 31 + 1)
    (hrows : ∀ row ∈ w.entityMasks, row = List.replicate n 0) :
    (registerComponent w c).size = n
    ∧ (registerComponent w c).queries = []
    ∧ (registerComponent w c).bitflag = 2 ^ ((m + 1) % 31)
    ∧ (registerComponent w c).entityMasks.length = (m + 1) / 31 + 1
    ∧ (∀ row ∈ (registerComponent w c).entityMasks, row = List.replicate n 0) := by
  have hmod : m % 31 < 31 := Nat.mod_lt m (by norm_num)
  by_cases hover : m % 31 = 30
  · have hcond : 2147483648 ≤ w.bitflag * 2 := by
      rw [hbit, hover]
      norm_num
    have h1 : (m + 1) % 31 = 0 := by omega
    have h2 : (m + 1) / 31 = m / 31 + 1 := by omega
    refine ⟨?_, ?_, ?_, ?_, ?_⟩
    · simp [registerComponent, incrementBitflag, hcond, hsize]
    · simp [registerComponent, incrementBitflag, hcond, hq]
    · simp [registerComponent, incrementBitflag, hcond, h1]
    · simp [registerComponent, incrementBitflag, hcond, hlen, h2]
    · intro row hrow
      simp [registerComponent, incrementBitflag, hcond] at hrow
      rcases hrow with hmem | hmem
      · exact hrows row hmem
      · rw [hmem, hsize]
  · have hcond : ¬(2147483648 ≤ w.bitflag * 2) := by
      rw [hbit]
      have hp : (2 : Nat) ^ (m % 31) * 2 = 2 ^ (m % 31 + 1) := by ring
      rw [hp]
      intro hge
      have hge' : (2 : Nat) ^ 31 ≤ 2 ^ (m % 31 + 1) := by
        calc (2 : Nat) ^ 31 = 2147483648 := by norm_num
          _ ≤ 2 ^ (m % 31 + 1) := hge
      have := (Nat.pow_le_pow_iff_right (by norm_num : 1 < 2)).mp hge'
      omega
    have h1 : (m + 1) % 31 = m % 31 + 1 := by omega
    have h2 : (m + 1) / 31 = m / 31 := by omega
    refine ⟨?_, ?_, ?_, ?_, ?_⟩
    · simp [registerComponent, incrementBitflag, hcond, hsize]
    · simp [registerComponent, incrementBitflag, hcond, hq]
    · have hcond2 : ¬(2147483648 ≤ 2 ^ (m % 31) * 2) := by
        rw [hbit] at hcond
        exact hcond
      simp [registerComponent, incrementBitflag, hcond, hcond2, h1, hbit, pow_succ]
    · simp [registerComponent, incrementBitflag, hcond, hlen, h2]
    · intro row hrow
      simp [registerComponent, incrementBitflag, hcond] at hrow
      exact hrows row hrow

theorem registerComponents_inv (n : Nat) (cs : List Nat) :
    (registerComponents (createWorld n) cs).size = n
    ∧ (registerComponents (createWorld n) cs).queries = []
    ∧ (registerComponents (createWorld n) cs).bitflag = 2 ^ (cs.length % 31)
    ∧ (registerComponents (createWorld n) cs).entityMasks.length
        = cs.length / 31 + 1
    ∧ (∀ row ∈ (registerComponents (createWorld n) cs).entityMasks,
        row = List.replicate n 0) := by
  suffices hgen : ∀ (l : List Nat) (w : World) (m : Nat),
      w.size = n → w.queries = [] → w.bitflag = 2 ^ (m % 31) →
      w.entityMasks.length = m / 31 + 1 →
      (∀ row ∈ w.entityMasks, row = List.replicate n 0) →
      (l.foldl registerComponent w).size = n
      ∧ (l.foldl registerComponent w).queries = []
      ∧ (l.foldl registerComponent w).bitflag = 2 ^ ((m + l.length) % 31)
      ∧ (l.foldl registerComponent w).entityMasks.length
          = (m + l.length) / 31 + 1
      ∧ (∀ row ∈ (l.foldl registerComponent w).entityMasks,
          row = List.replicate n 0) by
    have h := hgen cs (createWorld n) 0 rfl rfl rfl rfl
      (by intro row hrow
          simp [createWorld] at hrow
          simp [hrow])
    simpa [registerComponents] using h
  intro l
  induction l with
  | nil =>
    intro w m h1 h2 h3 h4 h5
    simpa using ⟨h1, h2, h3, h4, h5⟩
  | cons c t ih =>
    intro w m h1 h2 h3 h4 h5
    have hstep := registerComponent_step n m w c h1 h2 h3 h4 h5
    have hrec := ih (registerComponent w c) (m + 1)
      hstep.1 hstep.2.1 hstep.2.2.1 hstep.2.2.2.1 hstep.2.2.2.2
    rw [List.foldl_cons]
    have harith : m + 1 + t.length = m + (t.length + 1) := by omega
    refine ⟨hrec.1, hrec.2.1, ?_, ?_, hrec.2.2.2.2⟩
    · rw [hrec.2.2.1, harith]
      simp
    · rw [hrec.2.2.2.1, harith]
      simp

/-- Claim C2: Bitflag/generation allocation. Starting from a fresh world
(cursor `1`, one all-zero generation), after registering the components of
`cs` one more registration of `c` (the `(|cs|+1)`-th overall) creates a
record with generation `|cs| / 31` and bitflag `2^(|cs| mod 31)`; the
cursor after `|cs|` registrations is `2^(|cs| mod 31)` and there are
`|cs| / 31 + 1` generations, each an all-zero word array of the world's
capacity; the granted bitflag never exceeds `2^30`, so the top bit `2^31`
is never assigned. The assignment is a function of the registration
sequence alone, hence deterministic in the registration order. -/
theorem C2_bitflag_generation_allocation (n : Nat) (cs : List Nat) (c : Nat) :
    lookupA c (registerComponent (registerComponents (createWorld n) cs) c).componentMap
      = some { generationId := cs.length / 31,
               bitflag := 2 ^ (cs.length % 31), queries := [] }
    ∧ (registerComponents (createWorld n) cs).bitflag = 2 ^ (cs.length % 31)
    ∧ (registerComponents (createWorld n) cs).entityMasks.length
        = cs.length / 31 + 1
    ∧ (∀ row ∈ (registerComponents (createWorld n) cs).entityMasks,
        row = List.replicate n 0)
    ∧ 2 ^ (cs.length % 31) ≤ 2 ^ 30 := by
  have hinv := registerComponents_inv n cs
  refine ⟨?_, hinv.2.2.1, hinv.2.2.2.1, hinv.2.2.2.2, ?_⟩
  · have hrec : (registerComponent (registerComponents (createWorld n) cs) c).componentMap
        = setA c { generationId := (registerComponents (createWorld n) cs).entityMasks.length - 1,
                   bitflag := (registerComponents (createWorld n) cs).bitflag,
                   queries := interestedIdxs (registerComponents (createWorld n) cs).queries c }
            (registerComponents (createWorld n) cs).componentMap := by
      unfold registerComponent incrementBitflag
      by_cases h : 2147483648 ≤ (registerComponents (createWorld n) cs).bitflag * 2 <;>
        simp [h]
    rw [hrec, hinv.2.2.1, hinv.2.2.2.1, hinv.2.1]
    have : cs.length / 31 + 1 - 1 = cs.length / 31 := by omega
    rw [this]
    exact lookupA_setA_self c _ _
  · have : cs.length % 31 ≤ 30 := by omega
    exact Nat.pow_le_pow_right (by norm_num) this

/-- Witness for C2: registering 31 components into a fresh world of
capacity 1 makes the 32nd registration land in a freshly appended second
generation at bit `1` — not at bit `2^31` of the first generation. -/
theorem C2_witness :
    lookupA 99 (registerComponent
        (registerComponents (createWorld 1) (List.range 31)) 99).componentMap
      = some { generationId := 1, bitflag := 1, queries := [] }
    ∧ (registerComponents (createWorld 1) (List.range 31)).bitflag = 1
    ∧ (registerComponents (createWorld 1) (List.range 31)).entityMasks.length = 2
    ∧ (∀ row ∈ (registerComponents (createWorld 1) (List.range 31)).entityMasks,
        row = List.replicate 1 0)
    ∧ (1 : Nat) ≤ 2 ^ 30 :=
  C2_bitflag_generation_allocation 1 (List.range 31) 99

theorem registerComponent_componentMap (w : World) (c : Nat) :
    (registerComponent w c).componentMap
      = setA c { generationId := w.entityMasks.length - 1,
                 bitflag := w.bitflag,
                 queries := interestedIdxs w.queries c } w.componentMap := by
  unfold registerComponent incrementBitflag
  by_cases h : 2147483648 ≤ w.bitflag * 2 <;> simp [h]

/-- Claim C3 counterexample: the claim says `removeComponent` shares
`addComponent`'s lazy-registration step, so removing a never-registered
component from a live entity would create a registration record and
consume a bitflag. The source (`src/Component.js:217-220`) has no such
step: after the two guards, `if (!hasComponent(world, component, eid))
return` fires (an unregistered component is never had) and the call
returns with the world — registry and cursor included — untouched. At the
concrete world `W0`, live entity `0` and unregistered component `9`, the
call returns `W0` itself: no record is created and the cursor still holds
its old value, refuting the claimed registration. -/
theorem C3_counterexample :
    (0 ∈ W0.entitySparseSet)
    ∧ lookupA 9 W0.componentMap = none
    ∧ removeComponent W0 9 (some 0) true = .ok W0
    ∧ lookupA 9 (Res.state (removeComponent W0 9 (some 0) true)).componentMap = none
    ∧ (Res.state (removeComponent W0 9 (some 0) true)).bitflag = W0.bitflag :=
  ⟨by decide, rfl, rfl, rfl, rfl⟩

/-- Claim C3 as amended: `removeComponent` performs the same first step as
`addComponent` — the `EntityUndefined` and `EntityNotFound` guards — but,
unlike `addComponent`, it has no lazy-registration step: calling
`removeComponent` on an existing entity with a component never registered
in this world returns immediately as an absent-to-absent no-op, leaving
the world entirely unchanged — no registration record is created and no
bitflag is consumed. -/
theorem C3_remove_unregistered_noop
    (w : World) (c e : Nat) (reset : Bool)
    (he : e ∈ w.entitySparseSet)
    (hnone : lookupA c w.componentMap = none) :
    removeComponent w c none reset = .err entityUndefinedMsg w
    ∧ (∀ e', e' ∉ w.entitySparseSet →
        removeComponent w c (some e') reset = .err entityNotFoundMsg w)
    ∧ removeComponent w c (some e) reset = .ok w
    ∧ lookupA c (Res.state (removeComponent w c (some e) reset)).componentMap = none
    ∧ (Res.state (removeComponent w c (some e) reset)).bitflag = w.bitflag := by
  have hok : removeComponent w c (some e) reset = .ok w :=
    removeComponent_ok_of_not_has w c e reset he
      (hasComponent_of_unregistered w c e hnone)
  refine ⟨removeComponent_none_err w c reset,
    fun e' he' => removeComponent_notfound_err w c e' reset he', hok, ?_, ?_⟩
  · rw [hok]
    exact hnone
  · rw [hok]
    rfl

/-- Witness for the amended C3: removing the unregistered component `9`
from the live entity `0` of `W0` is a complete no-op — the world comes back
unchanged, component `9` stays unregistered and the cursor stays put. -/
theorem C3_witness :
    removeComponent W0 9 (some 0) true = .ok W0
    ∧ lookupA 9 (Res.state (removeComponent W0 9 (some 0) true)).componentMap = none
    ∧ (Res.state (removeComponent W0 9 (some 0) true)).bitflag = W0.bitflag := by
  have h := C3_remove_unregistered_noop W0 9 0 true (by decide) rfl
  exact ⟨h.2.2.1, h.2.2.2.1, h.2.2.2.2⟩

/-- Claim C4: Query synchronization. After toggling the entity's mask bit,
both `addComponent` and `removeComponent` rewrite exactly the queries in the
component's interested set, each by the shared per-query body `qtransform`
evaluated against the mask-toggled world: first the entity is removed from
the query's `toRemove` set, then full membership is recomputed by the
external predicate `queryCheckEntity` over all of the query's components;
on a match the entity is removed from `exited` and inserted into the result
set (`queryAddEntity`), otherwise it is removed from `entered` and removed
from the result set (`queryRemoveEntity`). Queries outside the interested
set are untouched. -/
theorem C4_query_synchronization
    (w : World) (c e : Nat) (r : CompRecord) (row : List Nat)
    (he : e ∈ w.entitySparseSet)
    (hreg : lookupA c w.componentMap = some r)
    (hnd : r.queries.Nodup)
    (hrow : w.entityMasks[r.generationId]? = some row) :
    (∀ (reset : Bool) (w' : World),
      hasComponent w c e = false →
      addComponent w c (some e) reset = .ok w' →
      (∀ i ∈ r.queries, w'.queries[i]? = (w.queries[i]?).map
          (fun q => qtransform (withMaskOr w r.generationId e r.bitflag) e q))
      ∧ (∀ i, i ∉ r.queries → w'.queries[i]? = w.queries[i]?))
    ∧ (∀ (reset : Bool) (w' : World),
      hasComponent w c e = true →
      removeComponent w c (some e) reset = .ok w' →
      (∀ i ∈ r.queries, w'.queries[i]? = (w.queries[i]?).map
          (fun q => qtransform (withMaskAndNot w r.generationId e r.bitflag) e q))
      ∧ (∀ i, i ∉ r.queries → w'.queries[i]? = w.queries[i]?)) := by
  constructor
  · intro reset w' hhas hok
    rcases addComponent_ok_cases w c e reset r row w' he hreg hhas hrow hok
      with ⟨s, hs, hw'⟩
    subst hw'
    constructor
    · intro i hi
      rw [addPostState_queries_get w c e reset r s hnd i, if_pos hi]
    · intro i hi
      rw [addPostState_queries_get w c e reset r s hnd i, if_neg hi]
  · intro reset w' hhas hok
    rcases removeComponent_ok_cases w c e reset r row w' he hreg hhas hrow hok
      with ⟨s, hs, hw'⟩
    subst hw'
    constructor
    · intro i hi
      rw [removePostState_queries_get w c e reset r s hnd i, if_pos hi]
    · intro i hi
      rw [removePostState_queries_get w c e reset r s hnd i, if_neg hi]

/-- A concrete world with one live query over component `7`, which is
registered with record `(0, 1)` and interested-query set `{0}`. -/
def W1 : World :=
  { size := 2, bitflag := 2, entityMasks := [[0, 0]],
    componentMap := [(7, { generationId := 0, bitflag := 1, queries := [0] })],
    entitySparseSet := [0, 1],
    entityComponents := [(0, []), (1, [])],
    queries := [{ allComponents := [7], results := [], entered := [],
                  exited := [], toRemove := [] }],
    stores := [] }

/-- Witness for C4 at `W1`: adding component `7` to entity `0` rewrites the
single interested query by the shared synchronization body evaluated
against the mask-toggled world. -/
theorem C4_witness :
    (addPostState W1 7 0 false
        { generationId := 0, bitflag := 1, queries := [0] } []).queries[0]?
      = (W1.queries[0]?).map
          (fun q => qtransform (withMaskOr W1 0 0 1) 0 q) :=
  ((C4_query_synchronization W1 7 0
      { generationId := 0, bitflag := 1, queries := [0] } [0, 0]
      (by decide) rfl (by decide) rfl).1 false
    (addPostState W1 7 0 false
      { generationId := 0, bitflag := 1, queries := [0] } [])
    (by decide) rfl).1 0 (by decide)

/-- Claim C5: Existence guard. Every mutation (`addComponent`,
`removeComponent`, `updateComponent`) raises `EntityUndefined` on an
undefined entity argument and `EntityNotFound` on an entity outside the
world's existence set; in both failure cases the error result carries the
input world itself — the guards run before any mutation, so all entity
masks (indeed, the whole world) are unchanged. -/
theorem C5_existence_guard (w : World) (c : Nat) (reset : Bool) (d : JSVal) :
    addComponent w c none reset = .err entityUndefinedMsg w
    ∧ removeComponent w c none reset = .err entityUndefinedMsg w
    ∧ updateComponent w c none d = .err entityUndefinedMsg w
    ∧ (∀ e, e ∉ w.entitySparseSet →
        addComponent w c (some e) reset = .err entityNotFoundMsg w
        ∧ removeComponent w c (some e) reset = .err entityNotFoundMsg w
        ∧ updateComponent w c (some e) d = .err entityNotFoundMsg w) :=
  ⟨addComponent_none_err w c reset,
   removeComponent_none_err w c reset,
   updateComponent_none_err w c d,
   fun e he => ⟨addComponent_notfound_err w c e reset he,
     removeComponent_notfound_err w c e reset he,
     updateComponent_notfound_err w c e d he⟩⟩

/-- Witness for C5 at `W0`: entity `9` is not in the existence set, and
both guard failures leave the world untouched. -/
theorem C5_witness :
    addComponent W0 5 none false = .err entityUndefinedMsg W0
    ∧ addComponent W0 5 (some 9) false = .err entityNotFoundMsg W0 :=
  ⟨(C5_existence_guard W0 5 false .null).1,
   ((C5_existence_guard W0 5 false .null).2.2.2 9 (by decide)).1⟩

/-- Claim C10 (implicit): when `addComponent` fails its `EntityUndefined`
or `EntityNotFound` guard, the component registry is also unchanged — the
thrown state has the same `componentMap` and allocation cursor, and a
component never registered in the world remains unregistered — because
both existence checks run before the lazy registration step. -/
theorem C10_guard_failure_registry_unchanged
    (w : World) (c : Nat) (reset : Bool) :
    (addComponent w c none reset).state.componentMap = w.componentMap
    ∧ (addComponent w c none reset).state.bitflag = w.bitflag
    ∧ (∀ e, e ∉ w.entitySparseSet →
        (addComponent w c (some e) reset).state.componentMap = w.componentMap
        ∧ (addComponent w c (some e) reset).state.bitflag = w.bitflag)
    ∧ (lookupA c w.componentMap = none →
        lookupA c (addComponent w c none reset).state.componentMap = none
        ∧ ∀ e, e ∉ w.entitySparseSet →
            lookupA c (addComponent w c (some e) reset).state.componentMap = none) := by
  have hnone : (addComponent w c none reset).state = w := by
    rw [addComponent_none_err w c reset]
    rfl
  refine ⟨by rw [hnone], by rw [hnone], ?_, ?_⟩
  · intro e he
    have hs : (addComponent w c (some e) reset).state = w := by
      rw [addComponent_notfound_err w c e reset he]
      rfl
    exact ⟨by rw [hs], by rw [hs]⟩
  · intro hcr
    refine ⟨by rw [hnone]; exact hcr, ?_⟩
    intro e he
    have hs : (addComponent w c (some e) reset).state = w := by
      rw [addComponent_notfound_err w c e reset he]
      rfl
    rw [hs]
    exact hcr

/-- Witness for C10 at `W0` and the unregistered component `9`: the failed
add on the nonexistent entity `9` consumes no registration. -/
theorem C10_witness :
    lookupA 9 (addComponent W0 9 none false).state.componentMap = none
    ∧ lookupA 9 (addComponent W0 9 (some 9) false).state.componentMap = none :=
  ⟨((C10_guard_failure_registry_unchanged W0 9 false).2.2.2 rfl).1,
   ((C10_guard_failure_registry_unchanged W0 9 false).2.2.2 rfl).2 9 (by decide)⟩

/-! ### Lemmas for the idempotence claim -/

theorem replicate_getE_zero (n e : Nat) :
    ((List.replicate n (0 : Nat))[e]?).getD 0 = 0 := by
  by_cases h : e < n <;> simp [List.getElem?_replicate, h]

theorem registerComponent_entityMasks (w : World) (c : Nat) :
    (registerComponent w c).entityMasks = w.entityMasks
    ∨ (registerComponent w c).entityMasks
        = w.entityMasks ++ [List.replicate w.size 0] := by
  unfold registerComponent incrementBitflag
  by_cases h : 2147483648 ≤ w.bitflag * 2
  · right
    simp [h]
  · left
    simp [h]

theorem registerComponent_entityMasks_getE (w : World) (c g : Nat)
    (hg : g < w.entityMasks.length) :
    (registerComponent w c).entityMasks[g]? = w.entityMasks[g]? := by
  rcases registerComponent_entityMasks w c with hm | hm
  · rw [hm]
  · rw [hm]
    exact List.getElem?_append_left hg

theorem registerComponent_entityMasks_length (w : World) (c : Nat) :
    w.entityMasks.length ≤ (registerComponent w c).entityMasks.length := by
  rcases registerComponent_entityMasks w c with hm | hm
  · rw [hm]
  · rw [hm]
    simp

theorem maskAt_registerComponent (w : World) (c g e : Nat) :
    maskAt (registerComponent w c) g e = maskAt w g e := by
  rcases registerComponent_entityMasks w c with hm | hm
  · unfold maskAt
    rw [hm]
  · unfold maskAt
    rw [hm]
    simp only [List.getD, List.get?_eq_getElem?]
    by_cases hg : g < w.entityMasks.length
    · rw [List.getElem?_append_left hg]
    · have h1 : (w.entityMasks ++ [List.replicate w.size 0])[g]?
          = if g = w.entityMasks.length
            then some (List.replicate w.size 0) else none := by
        rw [List.getElem?_append_right (by omega)]
        by_cases hge : g = w.entityMasks.length
        · subst hge
          simp
        · have hgap : 1 ≤ g - w.entityMasks.length := by omega
          rw [List.getElem?_eq_none (by simpa using hgap)]
          simp [hge]
      have h2 : w.entityMasks[g]? = none := List.getElem?_eq_none (by omega)
      rw [h1, h2]
      by_cases hge : g = w.entityMasks.length
      · simp only [hge, if_pos, Option.getD_some, Option.getD_none]
        rw [replicate_getE_zero]
        simp
      · simp [hge]

theorem registerComponent_lookup_self (w : World) (c : Nat) :
    lookupA c (registerComponent w c).componentMap
      = some { generationId := w.entityMasks.length - 1,
               bitflag := w.bitflag,
               queries := interestedIdxs w.queries c } := by
  rw [registerComponent_componentMap]
  exact lookupA_setA_self c _ _

theorem addComponent_eq_register (w : World) (c e : Nat) (rs : Bool)
    (he : e ∈ w.entitySparseSet)
    (hnone : lookupA c w.componentMap = none) :
    addComponent w c (some e) rs
      = addComponent (registerComponent w c) c (some e) rs := by
  have hframe := registerComponent_frame w c
  have he' : e ∈ (registerComponent w c).entitySparseSet := by
    rw [hframe.2.1]
    exact he
  have hsome : (lookupA c (registerComponent w c).componentMap).isSome := by
    rw [registerComponent_lookup_self]
    simp
  simp [addComponent, he, hnone, he', hsome]

theorem maskAt_cases (w : World) (g e : Nat) :
    maskAt w g e = 0 ∨ ∃ row ∈ w.entityMasks, maskAt w g e ∈ row := by
  unfold maskAt
  simp only [List.getD, List.get?_eq_getElem?]
  cases hrowq : w.entityMasks[g]? with
  | none => simp
  | some row =>
    have hrmem : row ∈ w.entityMasks := List.getElem?_mem hrowq
    cases hvq : row[e]? with
    | none => simp [hvq]
    | some m =>
      right
      exact ⟨row, hrmem, by simpa [hvq] using List.getElem?_mem hvq⟩

theorem bool_not_true_eq_false {b : Bool} (h : ¬b = true) : b = false := by
  cases b
  · rfl
  · exact absurd rfl h

/-- After a successful `addComponent` on a world satisfying the
reachable-state invariants, the component is present on the entity, which
still exists, and the component is registered. -/
theorem addComponent_post_has (w : World) (c e : Nat) (rs : Bool) (w' : World)
    (hne : w.entityMasks ≠ [])
    (hrows : ∀ row ∈ w.entityMasks, row.length = w.size)
    (hesize : e < w.size)
    (hcursor : ∃ k, k < 31 ∧ w.bitflag = 2 ^ k)
    (hrecs : ∀ p ∈ w.componentMap,
      (∃ k, k < 31 ∧ p.2.bitflag = 2 ^ k)
      ∧ p.2.generationId < w.entityMasks.length)
    (hok : addComponent w c (some e) rs = .ok w') :
    hasComponent w' c e = true ∧ e ∈ w'.entitySparseSet
    ∧ (lookupA c w'.componentMap).isSome := by
  by_cases he : e ∈ w.entitySparseSet
  · cases hc : lookupA c w.componentMap with
    | some r =>
      obtain ⟨⟨k, hk, hb⟩, hg⟩ := hrecs (c, r) (mem_of_lookupA c r _ hc)
      obtain ⟨row, hrowq⟩ : ∃ row, w.entityMasks[r.generationId]? = some row :=
        ⟨w.entityMasks[r.generationId], List.getElem?_eq_getElem hg⟩
      have hrmem : row ∈ w.entityMasks := List.getElem?_mem hrowq
      have hrlen : e < row.length := by
        rw [hrows row hrmem]
        exact hesize
      by_cases hhas : hasComponent w c e = true
      · rw [addComponent_ok_of_has w c e rs he hhas] at hok
        have hww : w' = w := (Res.ok.inj hok).symm
        rw [hww]
        exact ⟨hhas, he, by rw [hc]; simp⟩
      · rcases addComponent_ok_cases w c e rs r row w' he hc
          (bool_not_true_eq_false hhas) hrowq hok with ⟨s, hs, hw'⟩
        rw [hw']
        have hframe := addPostState_frame w c e rs r s
        exact ⟨hasComponent_addPostState w c e rs r s row k hc hk hb hrowq hrlen,
          by rw [hframe.2.2.2.1]; exact he,
          by rw [hframe.2.2.1, hc]; simp⟩
    | none =>
      rw [addComponent_eq_register w c e rs he hc] at hok
      obtain ⟨k, hk, hb⟩ := hcursor
      have hreg1 := registerComponent_lookup_self w c
      have hlen0 : 0 < w.entityMasks.length := List.length_pos.mpr hne
      have hg1 : w.entityMasks.length - 1 < w.entityMasks.length := by omega
      obtain ⟨row, hrowq0⟩ : ∃ row, w.entityMasks[w.entityMasks.length - 1]? = some row :=
        ⟨w.entityMasks[w.entityMasks.length - 1], List.getElem?_eq_getElem hg1⟩
      have hrow1 : (registerComponent w c).entityMasks[w.entityMasks.length - 1]? = some row := by
        rw [registerComponent_entityMasks_getE w c _ hg1]
        exact hrowq0
      have hrmem : row ∈ w.entityMasks := List.getElem?_mem hrowq0
      have hrlen : e < row.length := by
        rw [hrows row hrmem]
        exact hesize
      have he1 : e ∈ (registerComponent w c).entitySparseSet := by
        rw [(registerComponent_frame w c).2.1]
        exact he
      by_cases hhas1 : hasComponent (registerComponent w c) c e = true
      · rw [addComponent_ok_of_has _ c e rs he1 hhas1] at hok
        have hww : w' = registerComponent w c := (Res.ok.inj hok).symm
        rw [hww]
        exact ⟨hhas1, he1, by rw [hreg1]; simp⟩
      · rcases addComponent_ok_cases (registerComponent w c) c e rs
          { generationId := w.entityMasks.length - 1, bitflag := w.bitflag,
            queries := interestedIdxs w.queries c } row w' he1 hreg1
          (bool_not_true_eq_false hhas1) hrow1 hok with ⟨s, hs, hw'⟩
        rw [hw']
        have hframe := addPostState_frame (registerComponent w c) c e rs
          (freshRecord w c) s
        simp only [freshRecord] at hframe
        exact ⟨hasComponent_addPostState (registerComponent w c) c e rs
            (freshRecord w c) s row k
            hreg1 hk hb hrow1 hrlen,
          by rw [hframe.2.2.2.1]; exact he1,
          by rw [hframe.2.2.1, hreg1]; simp⟩
  · rw [addComponent_notfound_err w c e rs he] at hok
    exact absurd hok (by simp)

/-- After a successful `removeComponent` on a world satisfying the
reachable-state invariants, the component is absent from the entity, which
still exists. (Unlike `addComponent`, the call never registers anything:
an unregistered component early-returns at the `hasComponent` check.) -/
theorem removeComponent_post_not_has (w : World) (c e : Nat) (rs : Bool) (w' : World)
    (hne : w.entityMasks ≠ [])
    (hrows : ∀ row ∈ w.entityMasks, row.length = w.size)
    (hesize : e < w.size)
    (hcursor : ∃ k, k < 31 ∧ w.bitflag = 2 ^ k)
    (hrecs : ∀ p ∈ w.componentMap,
      (∃ k, k < 31 ∧ p.2.bitflag = 2 ^ k)
      ∧ p.2.generationId < w.entityMasks.length)
    (hok : removeComponent w c (some e) rs = .ok w') :
    hasComponent w' c e = false ∧ e ∈ w'.entitySparseSet := by
  by_cases he : e ∈ w.entitySparseSet
  · by_cases hhas : hasComponent w c e = true
    · have hsome := isSome_componentMap_of_has w c e hhas
      obtain ⟨r, hc⟩ := Option.isSome_iff_exists.mp hsome
      obtain ⟨⟨k, hk, hb⟩, hg⟩ := hrecs (c, r) (mem_of_lookupA c r _ hc)
      obtain ⟨row, hrowq⟩ : ∃ row, w.entityMasks[r.generationId]? = some row :=
        ⟨w.entityMasks[r.generationId], List.getElem?_eq_getElem hg⟩
      have hrmem : row ∈ w.entityMasks := List.getElem?_mem hrowq
      have hrlen : e < row.length := by
        rw [hrows row hrmem]
        exact hesize
      rcases removeComponent_ok_cases w c e rs r row w' he hc hhas hrowq hok
        with ⟨s, hs, hw'⟩
      rw [hw']
      have hframe := removePostState_frame w c e rs r s
      exact ⟨hasComponent_removePostState w c e rs r s row k hc hk hb hrowq hrlen,
        by rw [hframe.2.2.2.1]; exact he⟩
    · rw [removeComponent_ok_of_not_has w c e rs he
        (bool_not_true_eq_false hhas)] at hok
      have hww : w' = w := (Res.ok.inj hok).symm
      rw [hww]
      exact ⟨bool_not_true_eq_false hhas, he⟩
  · rw [removeComponent_notfound_err w c e rs he] at hok
    exact absurd hok (by simp)

theorem hasComponent_iff_land (w : World) (c e : Nat) (r : CompRecord) (k : Nat)
    (hreg : lookupA c w.componentMap = some r)
    (hk : k < 31) (hb : r.bitflag = 2 ^ k) :
    hasComponent w c e = true
      ↔ maskAt w r.generationId e &&& r.bitflag = r.bitflag := by
  unfold hasComponent
  rw [hreg]
  rw [decide_eq_true_iff]
  rw [hb]
  exact hasCond_iff _ k hk

/-- In a world whose masks never contain the unallocated cursor bit (true
of every reachable state), the component just registered is attached to no
entity. -/
theorem hasComponent_register_fresh (w : World) (c e : Nat) (k : Nat)
    (hk : k < 31) (hb : w.bitflag = 2 ^ k)
    (hmask0 : ∀ row ∈ w.entityMasks, ∀ m ∈ row, m &&& w.bitflag = 0) :
    hasComponent (registerComponent w c) c e = false := by
  have hval : maskAt w (w.entityMasks.length - 1) e &&& w.bitflag = 0 := by
    rcases maskAt_cases w (w.entityMasks.length - 1) e with h0 | ⟨row, hm, hv⟩
    · rw [h0]
      apply Nat.eq_of_testBit_eq
      intro j
      simp [Nat.testBit_and]
    · exact hmask0 row hm _ hv
  have hiff := hasComponent_iff_land (registerComponent w c) c e
    (freshRecord w c) k (registerComponent_lookup_self w c) hk hb
  cases hres : hasComponent (registerComponent w c) c e with
  | false => rfl
  | true =>
    exfalso
    have hland := hiff.mp hres
    have hm1 : maskAt (registerComponent w c) (freshRecord w c).generationId e
        = maskAt w (w.entityMasks.length - 1) e :=
      maskAt_registerComponent w c _ e
    rw [hm1] at hland
    have hbit : (freshRecord w c).bitflag = w.bitflag := rfl
    rw [hbit] at hland
    rw [hval] at hland
    have : (0 : Nat) < 2 ^ k := Nat.pos_pow_of_pos k (by norm_num)
    omega

/-- Claim C6: No-op / idempotence policy. Calling `addComponent` twice in a
row leaves the same observable world state as calling it once (the second
call returns the first call's world unchanged), and likewise for
`removeComponent`; `addComponent` on an already-present component returns
the world unchanged; `removeComponent` on an already-absent component
returns normally and leaves every mask value, the query sets, the
attached-component sets and the stores unchanged (for an unregistered
component the call early-returns at the `hasComponent` check, so the whole
world is untouched); and `updateComponent` on a non-attached component returns
the world unchanged. The hypotheses are the reachable-state invariants:
at least one generation, generation word arrays of the world's capacity,
the entity within capacity, cursor and registered bitflags powers of two
below `2^31`, registered generations in range, and the unallocated cursor
bit clear in every mask. -/
theorem C6_noop_idempotence (w : World) (c e : Nat) (rs : Bool) (d : JSVal)
    (hne : w.entityMasks ≠ [])
    (hrows : ∀ row ∈ w.entityMasks, row.length = w.size)
    (hesize : e < w.size)
    (hcursor : ∃ k, k < 31 ∧ w.bitflag = 2 ^ k)
    (hrecs : ∀ p ∈ w.componentMap,
      (∃ k, k < 31 ∧ p.2.bitflag = 2 ^ k)
      ∧ p.2.generationId < w.entityMasks.length)
    (hmask0 : ∀ row ∈ w.entityMasks, ∀ m ∈ row, m &&& w.bitflag = 0)
    (he : e ∈ w.entitySparseSet) :
    (∀ w', addComponent w c (some e) rs = .ok w' →
        addComponent w' c (some e) rs = .ok w')
    ∧ (∀ w', removeComponent w c (some e) rs = .ok w' →
        removeComponent w' c (some e) rs = .ok w')
    ∧ (hasComponent w c e = true → addComponent w c (some e) rs = .ok w)
    ∧ (hasComponent w c e = false →
        ∃ w', removeComponent w c (some e) rs = .ok w'
          ∧ (∀ g' e', maskAt w' g' e' = maskAt w g' e')
          ∧ w'.queries = w.queries
          ∧ w'.entityComponents = w.entityComponents
          ∧ w'.stores = w.stores)
    ∧ (hasComponent w c e = false → updateComponent w c (some e) d = .ok w) := by
  refine ⟨?_, ?_, ?_, ?_, ?_⟩
  · intro w' hok
    have hpost := addComponent_post_has w c e rs w' hne hrows hesize hcursor hrecs hok
    exact addComponent_ok_of_has w' c e rs hpost.2.1 hpost.1
  · intro w' hok
    have hpost := removeComponent_post_not_has w c e rs w' hne hrows hesize hcursor hrecs hok
    exact removeComponent_ok_of_not_has w' c e rs hpost.2 hpost.1
  · intro hhas
    exact addComponent_ok_of_has w c e rs he hhas
  · intro hhas
    exact ⟨w, removeComponent_ok_of_not_has w c e rs he hhas,
      fun g' e' => rfl, rfl, rfl, rfl⟩
  · intro hhas
    exact updateComponent_ok_of_not_has w c e d he hhas

/-- A successful `addComponent` with `reset = false` never touches any
component store. -/
theorem addComponent_stores_of_ok (w : World) (c e : Nat) (w' : World)
    (hne : w.entityMasks ≠ [])
    (hrows : ∀ row ∈ w.entityMasks, row.length = w.size)
    (hesize : e < w.size)
    (hcursor : ∃ k, k < 31 ∧ w.bitflag = 2 ^ k)
    (hrecs : ∀ p ∈ w.componentMap,
      (∃ k, k < 31 ∧ p.2.bitflag = 2 ^ k)
      ∧ p.2.generationId < w.entityMasks.length)
    (hok : addComponent w c (some e) false = .ok w') :
    w'.stores = w.stores := by
  by_cases he : e ∈ w.entitySparseSet
  · cases hc : lookupA c w.componentMap with
    | some r =>
      obtain ⟨⟨k, hk, hb⟩, hg⟩ := hrecs (c, r) (mem_of_lookupA c r _ hc)
      obtain ⟨row, hrowq⟩ : ∃ row, w.entityMasks[r.generationId]? = some row :=
        ⟨w.entityMasks[r.generationId], List.getElem?_eq_getElem hg⟩
      by_cases hhas : hasComponent w c e = true
      · rw [addComponent_ok_of_has w c e false he hhas] at hok
        rw [(Res.ok.inj hok).symm]
      · rcases addComponent_ok_cases w c e false r row w' he hc
          (bool_not_true_eq_false hhas) hrowq hok with ⟨s, hs, hw'⟩
        rw [hw']
        exact addPostState_stores_noreset w c e r s
    | none =>
      rw [addComponent_eq_register w c e false he hc] at hok
      have hreg1 := registerComponent_lookup_self w c
      have hlen0 : 0 < w.entityMasks.length := List.length_pos.mpr hne
      have hg1 : w.entityMasks.length - 1 < w.entityMasks.length := by omega
      obtain ⟨row, hrowq0⟩ : ∃ row, w.entityMasks[w.entityMasks.length - 1]? = some row :=
        ⟨w.entityMasks[w.entityMasks.length - 1], List.getElem?_eq_getElem hg1⟩
      have hrow1 : (registerComponent w c).entityMasks[w.entityMasks.length - 1]? = some row := by
        rw [registerComponent_entityMasks_getE w c _ hg1]
        exact hrowq0
      have he1 : e ∈ (registerComponent w c).entitySparseSet := by
        rw [(registerComponent_frame w c).2.1]
        exact he
      have hstr : (registerComponent w c).stores = w.stores :=
        (registerComponent_frame w c).2.2.2.2
      by_cases hhas1 : hasComponent (registerComponent w c) c e = true
      · rw [addComponent_ok_of_has _ c e false he1 hhas1] at hok
        rw [(Res.ok.inj hok).symm]
        exact hstr
      · rcases addComponent_ok_cases (registerComponent w c) c e false
          (freshRecord w c) row w' he1 hreg1
          (bool_not_true_eq_false hhas1) hrow1 hok with ⟨s, hs, hw'⟩
        rw [hw']
        rw [addPostState_stores_noreset (registerComponent w c) c e (freshRecord w c) s]
        exact hstr
  · rw [addComponent_notfound_err w c e false he] at hok
    exact absurd hok (by simp)

/-- A successful `removeComponent` with `reset = false` never touches any
component store. -/
theorem removeComponent_stores_of_ok (w : World) (c e : Nat) (w' : World)
    (hne : w.entityMasks ≠ [])
    (hrows : ∀ row ∈ w.entityMasks, row.length = w.size)
    (hesize : e < w.size)
    (hcursor : ∃ k, k < 31 ∧ w.bitflag = 2 ^ k)
    (hrecs : ∀ p ∈ w.componentMap,
      (∃ k, k < 31 ∧ p.2.bitflag = 2 ^ k)
      ∧ p.2.generationId < w.entityMasks.length)
    (hok : removeComponent w c (some e) false = .ok w') :
    w'.stores = w.stores := by
  by_cases he : e ∈ w.entitySparseSet
  · by_cases hhas : hasComponent w c e = true
    · have hsome := isSome_componentMap_of_has w c e hhas
      obtain ⟨r, hc⟩ := Option.isSome_iff_exists.mp hsome
      obtain ⟨⟨k, hk, hb⟩, hg⟩ := hrecs (c, r) (mem_of_lookupA c r _ hc)
      obtain ⟨row, hrowq⟩ : ∃ row, w.entityMasks[r.generationId]? = some row :=
        ⟨w.entityMasks[r.generationId], List.getElem?_eq_getElem hg⟩
      rcases removeComponent_ok_cases w c e false r row w' he hc hhas hrowq hok
        with ⟨s, hs, hw'⟩
      rw [hw']
      exact removePostState_stores_noreset w c e r s
    · rw [removeComponent_ok_of_not_has w c e false he
        (bool_not_true_eq_false hhas)] at hok
      rw [(Res.ok.inj hok).symm]
  · rw [removeComponent_notfound_err w c e false he] at hok
    exact absurd hok (by simp)

/-- On a well-formed world with a live entity, `addComponent` always returns
normally. -/
theorem addComponent_ok_exists (w : World) (c e : Nat) (rs : Bool)
    (hne : w.entityMasks ≠ [])
    (hrows : ∀ row ∈ w.entityMasks, row.length = w.size)
    (hesize : e < w.size)
    (hcursor : ∃ k, k < 31 ∧ w.bitflag = 2 ^ k)
    (hrecs : ∀ p ∈ w.componentMap,
      (∃ k, k < 31 ∧ p.2.bitflag = 2 ^ k)
      ∧ p.2.generationId < w.entityMasks.length)
    (he : e ∈ w.entitySparseSet)
    (hec : (lookupA e w.entityComponents).isSome) :
    ∃ w1, addComponent w c (some e) rs = .ok w1 := by
  obtain ⟨s, hs⟩ := Option.isSome_iff_exists.mp hec
  cases hc : lookupA c w.componentMap with
  | some r =>
    obtain ⟨⟨k, hk, hb⟩, hg⟩ := hrecs (c, r) (mem_of_lookupA c r _ hc)
    obtain ⟨row, hrowq⟩ : ∃ row, w.entityMasks[r.generationId]? = some row :=
      ⟨w.entityMasks[r.generationId], List.getElem?_eq_getElem hg⟩
    by_cases hhas : hasComponent w c e = true
    · exact ⟨w, addComponent_ok_of_has w c e rs he hhas⟩
    · exact ⟨addPostState w c e rs r s,
        addComponent_ok_main w c e rs r row s he hc
          (bool_not_true_eq_false hhas) hrowq hs⟩
  | none =>
    rw [addComponent_eq_register w c e rs he hc]
    have hreg1 := registerComponent_lookup_self w c
    have hlen0 : 0 < w.entityMasks.length := List.length_pos.mpr hne
    have hg1 : w.entityMasks.length - 1 < w.entityMasks.length := by omega
    obtain ⟨row, hrowq0⟩ : ∃ row, w.entityMasks[w.entityMasks.length - 1]? = some row :=
      ⟨w.entityMasks[w.entityMasks.length - 1], List.getElem?_eq_getElem hg1⟩
    have hrow1 : (registerComponent w c).entityMasks[w.entityMasks.length - 1]? = some row := by
      rw [registerComponent_entityMasks_getE w c _ hg1]
      exact hrowq0
    have he1 : e ∈ (registerComponent w c).entitySparseSet := by
      rw [(registerComponent_frame w c).2.1]
      exact he
    have hs1 : lookupA e (registerComponent w c).entityComponents = some s := by
      rw [(registerComponent_frame w c).2.2.1]
      exact hs
    by_cases hhas1 : hasComponent (registerComponent w c) c e = true
    · exact ⟨registerComponent w c, addComponent_ok_of_has _ c e rs he1 hhas1⟩
    · exact ⟨addPostState (registerComponent w c) c e rs (freshRecord w c) s,
        addComponent_ok_main (registerComponent w c) c e rs (freshRecord w c) row s
          he1 hreg1 (bool_not_true_eq_false hhas1) hrow1 hs1⟩

/-- Witness for C6 at `W0`: component `5` is already present on entity `0`,
so a repeated `addComponent` returns the world unchanged, and the absent
component `9` makes `updateComponent` a no-op. -/
theorem C6_witness :
    addComponent W0 5 (some 0) false = .ok W0
    ∧ updateComponent W0 9 (some 0) JSVal.null = .ok W0 :=
  ⟨(C6_noop_idempotence W0 5 0 false JSVal.null (by decide) (by decide)
      (by decide) (by decide) (by decide) (by decide) (by decide)).2.2.1 (by decide),
   (C6_noop_idempotence W0 9 0 false JSVal.null (by decide) (by decide)
      (by decide) (by decide) (by decide) (by decide) (by decide)).2.2.2.2 (by decide)⟩

/-- Claim C7: Data reset defaults. With `reset = false` (its default),
`addComponent` leaves every component store untouched; with `reset = true`
(its default), `removeComponent` of a present component replaces the
component's store by `resetStoreFor store e` — the external zeroing routine,
which on a numeric leaf array writes `0` at index `e` — while passing
`reset = false` to `removeComponent` suppresses the zeroing entirely. -/
theorem C7_data_reset_defaults (w : World) (c e : Nat) (st : JSVal)
    (hne : w.entityMasks ≠ [])
    (hrows : ∀ row ∈ w.entityMasks, row.length = w.size)
    (hesize : e < w.size)
    (hcursor : ∃ k, k < 31 ∧ w.bitflag = 2 ^ k)
    (hrecs : ∀ p ∈ w.componentMap,
      (∃ k, k < 31 ∧ p.2.bitflag = 2 ^ k)
      ∧ p.2.generationId < w.entityMasks.length)
    (hst : lookupA c w.stores = some st) :
    (∀ w', addComponent w c (some e) false = .ok w' → w'.stores = w.stores)
    ∧ (∀ w', removeComponent w c (some e) false = .ok w' → w'.stores = w.stores)
    ∧ (hasComponent w c e = true → e ∈ w.entitySparseSet →
        ∀ w', removeComponent w c (some e) true = .ok w' →
          lookupA c w'.stores = some (resetStoreFor st e))
    ∧ (∀ es : List Int, resetStoreFor (JSVal.arr es) e = JSVal.arr (es.set e 0)) := by
  refine ⟨?_, ?_, ?_, fun es => rfl⟩
  · intro w' hok
    exact addComponent_stores_of_ok w c e w' hne hrows hesize hcursor hrecs hok
  · intro w' hok
    exact removeComponent_stores_of_ok w c e w' hne hrows hesize hcursor hrecs hok
  · intro hhas he w' hok
    have hsome : (lookupA c w.componentMap).isSome := isSome_componentMap_of_has w c e hhas
    obtain ⟨r, hc⟩ := Option.isSome_iff_exists.mp hsome
    obtain ⟨⟨k, hk, hb⟩, hg⟩ := hrecs (c, r) (mem_of_lookupA c r _ hc)
    obtain ⟨row, hrowq⟩ : ∃ row, w.entityMasks[r.generationId]? = some row :=
      ⟨w.entityMasks[r.generationId], List.getElem?_eq_getElem hg⟩
    rcases removeComponent_ok_cases w c e true r row w' he hc hhas hrowq hok
      with ⟨s, hs, hw'⟩
    rw [hw']
    exact removePostState_stores_reset w c e r s st hst

/-- Witness for C7 at `W0`: removing the present component `5` from entity
`0` with the default `reset = true` zeroes the `hp` leaf at index `0`. -/
theorem C7_witness :
    lookupA 5 (removePostState W0 5 0 true
        { generationId := 0, bitflag := 1, queries := [] } [5]).stores
      = some (resetStoreFor (JSVal.obj [("hp", JSVal.arr [7, 0])]) 0) :=
  (C7_data_reset_defaults W0 5 0 (JSVal.obj [("hp", JSVal.arr [7, 0])])
    (by decide) (by decide) (by decide) (by decide) (by decide) rfl).2.2.1
    (by decide) (by decide)
    (removePostState W0 5 0 true { generationId := 0, bitflag := 1, queries := [] } [5])
    rfl

/-- Claim C8 counterexample: the claim says `null` — not a nested mapping —
makes `recursivelySetComponentAttributes` (and hence `updateComponent` on a
present component) return normally without raising. But in JavaScript
`typeof null === 'object'`, so `null` passes the non-object guard and
reaches `Object.keys(null)`, which throws a `TypeError`: at entity `0`,
any section, and `data = null` the function raises instead of returning. -/
theorem C8_counterexample :
    recursivelySetComponentAttributes 0 (JSVal.obj []) JSVal.null
      = .err typeErrMsg (JSVal.obj [])
    ∧ typeofJS JSVal.null = "object"
    ∧ updateComponent W0 5 (some 0) JSVal.null = .err typeErrMsg W0 :=
  ⟨rfl, rfl, rfl⟩

/-- Claim C8 as amended: for every data value whose JS `typeof` is not
`"object"` — numbers, strings, booleans and `undefined`, but not `null` —
`recursivelySetComponentAttributes` returns normally without modifying the
section, and `updateComponent` on a present component with such data
returns the world unchanged; `null`, whose JS `typeof` is `"object"`,
instead raises a `TypeError` (leaving the section as it was). -/
theorem C8_nonobject_silent_noop (w : World) (c e : Nat) (sec d st : JSVal)
    (he : e ∈ w.entitySparseSet)
    (hhas : hasComponent w c e = true)
    (hst : lookupA c w.stores = some st)
    (hd : typeofJS d ≠ "object") :
    recursivelySetComponentAttributes e sec d = .ok sec
    ∧ updateComponent w c (some e) d = .ok w
    ∧ recursivelySetComponentAttributes e sec JSVal.null = .err typeErrMsg sec := by
  have hrec : ∀ s : JSVal, recursivelySetComponentAttributes e s d = .ok s := by
    intro s
    cases d with
    | num n => rfl
    | str s' => rfl
    | bool b => rfl
    | undefined => rfl
    | null => exact absurd rfl hd
    | arr es => exact absurd rfl hd
    | obj fs => exact absurd rfl hd
  refine ⟨hrec sec, ?_, rfl⟩
  have hgd : (lookupA c w.stores).getD .undefined = st := by
    rw [hst]
    rfl
  have hupd : updateComponent w c (some e) d
      = .ok { w with stores := setA c st w.stores } := by
    simp [updateComponent, he, hhas, hgd, hrec st]
  rw [hupd, setA_self_of_lookupA c st w.stores hst]

/-- Witness for the amended C8 at `W0`: a numeric data value is a silent
no-op for both the recursive assignment and `updateComponent`. -/
theorem C8_witness :
    recursivelySetComponentAttributes 0 (JSVal.obj []) (JSVal.num 3)
      = .ok (JSVal.obj [])
    ∧ updateComponent W0 5 (some 0) (JSVal.num 3) = .ok W0
    ∧ recursivelySetComponentAttributes 0 (JSVal.obj []) JSVal.null
      = .err typeErrMsg (JSVal.obj []) :=
  C8_nonobject_silent_noop W0 5 0 (JSVal.obj []) (JSVal.num 3)
    (JSVal.obj [("hp", JSVal.arr [7, 0])])
    (by decide) (by decide) rfl (by decide)

/-- Claim C9: Nested attribute assignment. For a component whose store has
the schema shape `{pos: {x, y}, hp}` and an existing entity `e` (within the
leaf arrays), `addAndPartiallyFillComponent` with data
`{pos: {x: 1, y: 2}, hp: 10}` is by definition add-then-update — the add
(membership and query synchronization) runs first and the attribute writes
second — and afterwards the component is present on `e` and reading
`C.pos.x[e]`, `C.pos.y[e]`, `C.hp[e]` yields `1`, `2`, `10`: nested
mappings are handled by recursion and numeric leaves written at index `e`. -/
theorem C9_nested_attribute_assignment (w : World) (c e : Nat)
    (xs ys hs : List Int)
    (hne : w.entityMasks ≠ [])
    (hrows : ∀ row ∈ w.entityMasks, row.length = w.size)
    (hesize : e < w.size)
    (hcursor : ∃ k, k < 31 ∧ w.bitflag = 2 ^ k)
    (hrecs : ∀ p ∈ w.componentMap,
      (∃ k, k < 31 ∧ p.2.bitflag = 2 ^ k)
      ∧ p.2.generationId < w.entityMasks.length)
    (he : e ∈ w.entitySparseSet)
    (hec : (lookupA e w.entityComponents).isSome)
    (hst : lookupA c w.stores = some (JSVal.obj
      [("pos", JSVal.obj [("x", JSVal.arr xs), ("y", JSVal.arr ys)]),
       ("hp", JSVal.arr hs)]))
    (hxe : e < xs.length) (hye : e < ys.length) (hhe : e < hs.length) :
    (∀ (eid? : Option Nat) (dd : JSVal) (rr : Bool),
      addAndPartiallyFillComponent w c eid? dd rr
        = match addComponent w c eid? rr with
          | .err m w1 => .err m w1
          | .ok w1 => updateComponent w1 c eid? dd)
    ∧ ∃ w', addAndPartiallyFillComponent w c (some e)
        (JSVal.obj [("pos", JSVal.obj [("x", JSVal.num 1), ("y", JSVal.num 2)]),
          ("hp", JSVal.num 10)]) false = .ok w'
      ∧ hasComponent w' c e = true
      ∧ readStoreLeaf w' c ["pos", "x"] e = some 1
      ∧ readStoreLeaf w' c ["pos", "y"] e = some 2
      ∧ readStoreLeaf w' c ["hp"] e = some 10 := by
  refine ⟨fun eid? dd rr => rfl, ?_⟩
  obtain ⟨w1, hok⟩ :=
    addComponent_ok_exists w c e false hne hrows hesize hcursor hrecs he hec
  have hpost := addComponent_post_has w c e false w1 hne hrows hesize hcursor hrecs hok
  have hstw1 : w1.stores = w.stores :=
    addComponent_stores_of_ok w c e w1 hne hrows hesize hcursor hrecs hok
  have hgd : (lookupA c w1.stores).getD .undefined
      = JSVal.obj [("pos", JSVal.obj [("x", JSVal.arr xs), ("y", JSVal.arr ys)]),
          ("hp", JSVal.arr hs)] := by
    rw [hstw1, hst]
    rfl
  have hcomp : recursivelySetComponentAttributes e
      (JSVal.obj [("pos", JSVal.obj [("x", JSVal.arr xs), ("y", JSVal.arr ys)]),
        ("hp", JSVal.arr hs)])
      (JSVal.obj [("pos", JSVal.obj [("x", JSVal.num 1), ("y", JSVal.num 2)]),
        ("hp", JSVal.num 10)])
      = .ok (JSVal.obj
          [("pos", JSVal.obj [("x", JSVal.arr (xs.set e 1)), ("y", JSVal.arr (ys.set e 2))]),
           ("hp", JSVal.arr (hs.set e 10))]) := by
    simp [recursivelySetComponentAttributes, setFields, setNumStep, getProp,
      setIdx, updatePropIfPresent, lookupA, replaceA]
  have hupd : updateComponent w1 c (some e)
      (JSVal.obj [("pos", JSVal.obj [("x", JSVal.num 1), ("y", JSVal.num 2)]),
        ("hp", JSVal.num 10)])
      = .ok { w1 with stores := setA c (JSVal.obj
          [("pos", JSVal.obj [("x", JSVal.arr (xs.set e 1)), ("y", JSVal.arr (ys.set e 2))]),
           ("hp", JSVal.arr (hs.set e 10))]) w1.stores } := by
    simp [updateComponent, hpost.2.1, hpost.1, hgd, hcomp]
  refine ⟨{ w1 with stores := setA c (JSVal.obj
      [("pos", JSVal.obj [("x", JSVal.arr (xs.set e 1)), ("y", JSVal.arr (ys.set e 2))]),
       ("hp", JSVal.arr (hs.set e 10))]) w1.stores }, ?_, ?_, ?_, ?_, ?_⟩
  · unfold addAndPartiallyFillComponent
    rw [hok]
    exact hupd
  · exact (hasComponent_congr _ w1 c e rfl rfl).trans hpost.1
  · unfold readStoreLeaf
    rw [lookupA_setA_self]
    simp [storePath, lookupA]
    exact getE_set_self xs e 1 hxe
  · unfold readStoreLeaf
    rw [lookupA_setA_self]
    simp [storePath, lookupA]
    exact getE_set_self ys e 2 hye
  · unfold readStoreLeaf
    rw [lookupA_setA_self]
    simp [storePath, lookupA]
    exact getE_set_self hs e 10 hhe

/-- A concrete world for the C9 witness: capacity 2, entities `0` and `1`
live, no registrations yet, and component `7` backed by an all-zero store
of schema shape `{pos: {x, y}, hp}`. -/
def W2 : World :=
  { size := 2, bitflag := 1, entityMasks := [[0, 0]], componentMap := [],
    entitySparseSet := [0, 1], entityComponents := [(0, []), (1, [])],
    queries := [],
    stores := [(7, JSVal.obj
      [("pos", JSVal.obj [("x", JSVal.arr [0, 0]), ("y", JSVal.arr [0, 0])]),
       ("hp", JSVal.arr [0, 0])])] }

/-- Witness for C9 at `W2`: filling component `7` on entity `0` with
`{pos: {x: 1, y: 2}, hp: 10}` succeeds and the three leaves read back. -/
theorem C9_witness :
    ∃ w', addAndPartiallyFillComponent W2 7 (some 0)
        (JSVal.obj [("pos", JSVal.obj [("x", JSVal.num 1), ("y", JSVal.num 2)]),
          ("hp", JSVal.num 10)]) false = .ok w'
      ∧ hasComponent w' 7 0 = true
      ∧ readStoreLeaf w' 7 ["pos", "x"] 0 = some 1
      ∧ readStoreLeaf w' 7 ["pos", "y"] 0 = some 2
      ∧ readStoreLeaf w' 7 ["hp"] 0 = some 10 :=
  (C9_nested_attribute_assignment W2 7 0 [0, 0] [0, 0] [0, 0]
    (by decide) (by decide) (by decide) (by decide) (by decide)
    (by decide) (by decide) rfl (by decide) (by decide) (by decide)).2

end BitECS
